import Mathlib

/-!
# zlg: a structured-logging facade over zerolog

Shallow embedding of `zlg.go` (package `zlg`) and `log/log.go` (package `log`).

* Go values handed to `With` as `interface{}` are the type `Value`.
* `*Logger` is a pointer: the allocated `Logger` objects live in `World.heap`
  and a `Ptr` is an address in it.  Every method takes the world and returns
  the world after the call.
* Package-level variables (`once`, the zerolog settings, `log.Logger`) are
  fields of `World`; standard error and standard output are the lists
  `World.stderr` and `World.stdout`.
* A Go `panic` and `os.Exit` are the `Outcome` of a call.
* The zerolog engine, `pkg/errors` and `fmt` are libraries outside the
  repository; the parts the code calls are modelled below and marked so.
-/

namespace Zlg

/-! ## Go values -/

/-- The type `zerolog.Level` (an `int8`), ordered by its number. -/
abbrev Level := Int

def TraceLevel : Level := -1
def DebugLevel : Level := 0
def InfoLevel : Level := 1
def WarnLevel : Level := 2
def ErrorLevel : Level := 3
def FatalLevel : Level := 4
def PanicLevel : Level := 5
def NoLevel : Level := 6
def Disabled : Level := 7

/-- One frame of an `errors.StackTrace`: function name, source file, line. -/
structure Frame where
  function : String
  file : String
  line : Nat
deriving DecidableEq, Repr

/-- A `time.Time` instant. -/
structure GoTime where
  unixNano : Int
deriving DecidableEq, Repr

/-- The Go values that reach `With` through `interface{}`.  A
`time.Duration` is its count of nanoseconds, a `float64` its bit pattern
(no arithmetic is done on either).  `frames` is the
`[]map[string]string` value built by `pkgerrors.MarshalStack`; `other` is a
value of any further dynamic type (`int32`, a struct, a slice, a typed nil
pointer), named by its Go type. -/
inductive Value where
  | nil
  | bool (b : Bool)
  | string (s : String)
  | int (i : Int)
  | uint (n : Nat)
  | int64 (i : Int)
  | uint64 (n : Nat)
  | float64 (bits : Nat)
  | duration (ns : Int)
  | time (t : GoTime)
  | frames (fs : List Frame)
  | other (goType : String) (repr : String)
deriving DecidableEq, Repr

/-- A non-nil Go `error`: the text of `Error()` and, when `errors.As` finds a
`stackTracer` in its chain, the frames of that `StackTrace()`. -/
structure GoError where
  text : String
  stackTrace : Option (List Frame)
deriving DecidableEq, Repr

/-- The layout constants of package `time` used by the code. -/
def RFC3339 : String := "2006-01-02T15:04:05Z07:00"
def RFC3339Nano : String := "2006-01-02T15:04:05.999999999Z07:00"

/-- Modelled from the spec: `time.Time.Format` belongs to the Go standard
library; the text is kept symbolic, as the layout applied to the instant. -/
def GoTime.Format (t : GoTime) (layout : String) : String :=
  layout ++ "@" ++ toString t.unixNano

/-! ## The zerolog engine (external collaborator) -/

/-- Which source of time `zerolog.TimestampFunc` reads. -/
inductive Clock where
  | timeNow
  | timeNowUTC
deriving DecidableEq, Repr

/-- The two functions of this package that are stored in
`zerolog.ErrorStackMarshaler`. -/
inductive StackMarshaler where
  | marshalStack
  | marshalStackPretty
deriving DecidableEq, Repr

/-- The encoder a field was written with, and its argument.  The first nine
are the typed encoders of `zerolog.Context`, `iface` is `Interface`, and
`timestamp`/`caller` are what the two hooks add when a record is written. -/
inductive Enc where
  | bool (b : Bool)
  | str (s : String)
  | int (i : Int)
  | uint (n : Nat)
  | int64 (i : Int)
  | uint64 (n : Nat)
  | float64 (bits : Nat)
  | dur (ns : Int) (asInteger : Bool)
  | time (t : GoTime) (format : String)
  | iface (v : Value)
  | timestamp (clock : Clock) (format : String)
  | caller (skip : Nat)
deriving DecidableEq, Repr

/-- One key/value of a record. -/
structure Field where
  key : String
  val : Enc
deriving DecidableEq, Repr

/-- Where a zerolog logger writes: `os.Stderr` as JSON, or the
`zerolog.ConsoleWriter` on `os.Stderr`. -/
inductive Writer where
  | stderr
  | console
deriving DecidableEq, Repr

inductive Hook where
  | timestampHook
  | callerHook
deriving DecidableEq, Repr

/-- Modelled from the spec: the package variables of zerolog that `New`
assigns (`TimeFieldFormat`, `CallerSkipFrameCount`, `DurationFieldInteger`,
`ErrorStackMarshaler`, `TimestampFunc`). -/
structure Globals where
  TimeFieldFormat : String
  CallerSkipFrameCount : Nat
  DurationFieldInteger : Bool
  ErrorStackMarshaler : Option StackMarshaler
  TimestampFunc : Clock
deriving DecidableEq, Repr

/-- The values zerolog gives these variables before any code of this
repository runs. -/
def zerologDefaults : Globals :=
  { TimeFieldFormat := RFC3339
    CallerSkipFrameCount := 2
    DurationFieldInteger := false
    ErrorStackMarshaler := none
    TimestampFunc := Clock.timeNow }

/-- The global level of zerolog; this repository never calls
`SetGlobalLevel`, so it keeps the value zerolog starts with. -/
def GlobalLevel : Level := TraceLevel

/-- Names of the fields zerolog adds itself. -/
def LevelFieldName : String := "level"
def MessageFieldName : String := "message"
def ErrorFieldName : String := "error"
def ErrorStackFieldName : String := "stack"
def TimestampFieldName : String := "time"
def CallerFieldName : String := "caller"

/-- Modelled from the spec: a `zerolog.Logger` value: writer, minimum level,
the fields of its context in the order they were appended, its hooks, and
the flag set by `Context.Stack`. -/
structure ZLogger where
  w : Writer
  level : Level
  context : List Field
  hooks : List Hook
  stack : Bool
deriving DecidableEq, Repr

/-- Modelled from the spec: `zerolog.New(w)`. -/
def zerologNew (w : Writer) : ZLogger :=
  { w := w, level := TraceLevel, context := [], hooks := [], stack := false }

/-- Modelled from the spec: `Logger.Level(lvl)`, a copy with the level replaced. -/
def ZLogger.Level (l : ZLogger) (lvl : Level) : ZLogger :=
  { l with level := lvl }

/-- Modelled from the spec: `Logger.Output(w)`, a copy writing to `w`; level,
context, hooks and stack flag are kept. -/
def ZLogger.Output (l : ZLogger) (w : Writer) : ZLogger :=
  { l with w := w }

/-- Modelled from the spec: a `zerolog.Context`, the logger under construction
between `With()` and `Logger()`. -/
structure Context where
  l : ZLogger
deriving DecidableEq, Repr

def ZLogger.With (l : ZLogger) : Context := ⟨l⟩

def Context.Logger (c : Context) : ZLogger := c.l

/-- Modelled from the spec: every typed encoder of `zerolog.Context` appends
one key/value to the context; nothing is looked up or replaced. -/
def Context.field (c : Context) (k : String) (e : Enc) : Context :=
  ⟨{ c.l with context := c.l.context ++ [⟨k, e⟩] }⟩

def Context.Timestamp (c : Context) : Context :=
  ⟨{ c.l with hooks := c.l.hooks ++ [Hook.timestampHook] }⟩

def Context.Caller (c : Context) : Context :=
  ⟨{ c.l with hooks := c.l.hooks ++ [Hook.callerHook] }⟩

def Context.Stack (c : Context) : Context :=
  ⟨{ c.l with stack := true }⟩

/-- Modelled from the spec: `Logger.should(lvl)`; the writer is never nil and
no sampler is ever installed by this repository. -/
def ZLogger.should (l : ZLogger) (lvl : Zlg.Level) : Bool :=
  !(decide (lvl < l.level) || decide (lvl < GlobalLevel))

/-- Modelled from the spec: `Level.String()`. -/
def levelString (lvl : Level) : String :=
  if lvl = TraceLevel then "trace"
  else if lvl = DebugLevel then "debug"
  else if lvl = InfoLevel then "info"
  else if lvl = WarnLevel then "warn"
  else if lvl = ErrorLevel then "error"
  else if lvl = FatalLevel then "fatal"
  else if lvl = PanicLevel then "panic"
  else if lvl = Disabled then "disabled"
  else if lvl = NoLevel then ""
  else toString lvl

/-- What `done` does after the record is written. -/
inductive Done where
  | nothing
  | panic
deriving DecidableEq, Repr

/-- Modelled from the spec: a `*zerolog.Event` that is enabled: the fields
written so far, its stack flag, and the hooks, writer and `done` of its
logger.  A nil event is `none`. -/
structure Event where
  w : Writer
  level : Level
  buf : List Field
  stack : Bool
  ch : List Hook
  done : Done
deriving DecidableEq, Repr

/-- One record written to the sink. -/
structure Record where
  w : Writer
  level : Level
  fields : List Field
deriving DecidableEq, Repr

/-- How a call ends: it returns, it panics with a value, or the process exits. -/
inductive Outcome where
  | returned
  | panicked (v : String)
  | exited (code : Nat)
deriving DecidableEq, Repr

/-! ## Package zlg -/

/-- The struct `Logger` of `zlg.go`. -/
structure Logger where
  pretty : Bool
  logger : ZLogger
deriving DecidableEq, Repr

/-- A `*Logger`. -/
abbrev Ptr := Nat

/-- The state of the process: the package variable `once` (with a count of how
often its function ran), the zerolog settings, the allocated `Logger`
objects, the variable `log.Logger`, and what was written to standard error
and standard output. -/
structure World where
  once : Bool
  setupRuns : Nat
  zerolog : Globals
  heap : List Logger
  logLogger : Ptr
  stderr : List Record
  stdout : List String
deriving DecidableEq, Repr

/-- The object a pointer refers to. -/
def World.deref (w : World) (p : Ptr) : Logger :=
  w.heap.getD p { pretty := false, logger := zerologNew Writer.stderr }

/-- Assignment through a pointer: `*p = v`. -/
def World.store (w : World) (p : Ptr) (v : Logger) : World :=
  { w with heap := w.heap.set p v }

/-- Allocation: `&Logger{...}`. -/
def World.alloc (w : World) (v : Logger) : World × Ptr :=
  ({ w with heap := w.heap ++ [v] }, w.heap.length)

/-- The assignment `l.logger = z` through the pointer `l`. -/
def World.setLogger (w : World) (l : Ptr) (z : ZLogger) : World :=
  w.store l { w.deref l with logger := z }

/-! ### Stack marshalers -/

/-- Modelled from the spec: `errors.As(err, &e)` for the local interface
`stackTracer`: the frames of the first error of the chain that has a
`StackTrace()` method, if there is one; a nil error has none. -/
def errorsAs (err : Option GoError) : Option (List Frame) :=
  match err with
  | none => none
  | some e => e.stackTrace

/-- Modelled from the spec: `pkgerrors.MarshalStack(err)`: nil when the error
exposes no stack, else a slice with one map (source, line, func) per frame. -/
def pkgerrorsMarshalStack (err : Option GoError) : Value :=
  match errorsAs err with
  | none => Value.nil
  | some st => Value.frames st

/-- The function `marshalStack` of `zlg.go`. -/
def marshalStack (err : Option GoError) : Value :=
  match errorsAs err with
  | none => Value.nil
  | some _ => pkgerrorsMarshalStack err

/-- The text of `fmt.Printf("%+s:%d\r\n", frame, frame)`: function name, a
newline and a tab, the file, a colon, the line, and CR LF. -/
def framePrintf (frame : Frame) : String :=
  frame.function ++ "\n\t" ++ frame.file ++ ":" ++ toString frame.line ++ "\r\n"

/-- One call of `fmt.Printf`: one write to standard output. -/
def fmtPrintf (w : World) (text : String) : World :=
  { w with stdout := w.stdout ++ [text] }

/-- The function `marshalStackPretty` of `zlg.go`. -/
def marshalStackPretty (w : World) (err : Option GoError) : World × Value :=
  match errorsAs err with
  | none => (w, Value.nil)
  | some st => (st.foldl (fun w1 frame => fmtPrintf w1 (framePrintf frame)) w, Value.nil)

/-- A call of the function stored in `zerolog.ErrorStackMarshaler`. -/
def StackMarshaler.call (m : StackMarshaler) (w : World) (err : Option GoError) :
    World × Value :=
  match m with
  | StackMarshaler.marshalStack => (w, Zlg.marshalStack err)
  | StackMarshaler.marshalStackPretty => Zlg.marshalStackPretty w err

/-- Modelled from the spec: `Context.AnErr(key, err)`: nothing for a nil
error, else the text of the error under `key`. -/
def Context.AnErr (c : Context) (key : String) (err : Option GoError) : Context :=
  match err with
  | none => c
  | some e => c.field key (Enc.str e.text)

/-- Modelled from the spec: the first half of zerolog's `Err`, shared by
`Context.Err` and `Event.Err`: when the stack flag is set and a marshaler is
installed, the marshaler is called, and a non-nil result becomes the stack
field, written with the generic encoder. -/
def errStack (w : World) (stack : Bool) (err : Option GoError) : World × List Field :=
  if stack then
    match w.zerolog.ErrorStackMarshaler with
    | none => (w, [])
    | some m =>
      ((m.call w err).1,
        match (m.call w err).2 with
        | Value.nil => []
        | v => [⟨ErrorStackFieldName, Enc.iface v⟩])
  else (w, [])

/-- Modelled from the spec: `Context.Err(err)`: the stack field (if any), then
the error field. -/
def Context.Err (w : World) (c : Context) (err : Option GoError) : World × Context :=
  ((errStack w c.l.stack err).1,
    (⟨{ c.l with context := c.l.context ++ (errStack w c.l.stack err).2 }⟩ : Context).AnErr
      ErrorFieldName err)

/-! ### Events -/

/-- Modelled from the spec: `Logger.newEvent(level, done)`: a disabled level
gives the nil event (after calling `done` with the empty text); an enabled one
starts with the level field and the fields of the context. -/
def ZLogger.newEvent (l : ZLogger) (level : Zlg.Level) (done : Done) :
    Outcome × Option Event :=
  if l.should level then
    (Outcome.returned,
      some { w := l.w
             level := level
             buf := (if level = NoLevel then [] else
                      [⟨LevelFieldName, Enc.str (levelString level)⟩]) ++ l.context
             stack := l.stack
             ch := l.hooks
             done := done })
  else
    match done with
    | Done.nothing => (Outcome.returned, none)
    | Done.panic => (Outcome.panicked "", none)

/-- Modelled from the spec: `Event.Stack()`. -/
def Event.Stack (e : Option Event) : Option Event :=
  e.map (fun ev => { ev with stack := true })

/-- Modelled from the spec: `Event.AnErr(key, err)`. -/
def Event.AnErr (e : Option Event) (key : String) (err : Option GoError) : Option Event :=
  match e, err with
  | some ev, some x => some { ev with buf := ev.buf ++ [⟨key, Enc.str x.text⟩] }
  | _, _ => e

/-- Modelled from the spec: `Event.Err(err)`, the event counterpart of
`Context.Err`; a nil event is left alone. -/
def Event.Err (w : World) (e : Option Event) (err : Option GoError) : World × Option Event :=
  match e with
  | none => (w, none)
  | some ev =>
    ((errStack w ev.stack err).1,
      Event.AnErr (some { ev with buf := ev.buf ++ (errStack w ev.stack err).2 })
        ErrorFieldName err)

/-- What a hook adds to the record being written. -/
def Hook.run (g : Globals) (h : Hook) : Field :=
  match h with
  | Hook.timestampHook => ⟨TimestampFieldName, Enc.timestamp g.TimestampFunc g.TimeFieldFormat⟩
  | Hook.callerHook => ⟨CallerFieldName, Enc.caller g.CallerSkipFrameCount⟩

/-- Modelled from the spec: `Event.Msg(msg)`: a nil event does nothing; else
the hooks run, a non-empty message is added, the record is written, and
`done` is called with the message. -/
def Event.Msg (w : World) (e : Option Event) (msg : String) : World × Outcome :=
  match e with
  | none => (w, Outcome.returned)
  | some ev =>
    let fields := ev.buf ++ ev.ch.map (Hook.run w.zerolog) ++
      (if msg = "" then [] else [⟨MessageFieldName, Enc.str msg⟩])
    let w1 := { w with stderr := w.stderr ++ [{ w := ev.w, level := ev.level, fields := fields }] }
    match ev.done with
    | Done.nothing => (w1, Outcome.returned)
    | Done.panic => (w1, Outcome.panicked msg)

/-- Modelled from the spec: `Event.Send()`. -/
def Event.Send (w : World) (e : Option Event) : World × Outcome :=
  Event.Msg w e ""

/-! ### Construction -/

/-- The options of `zlg.go`: `Level(lvl)` and `Pretty()`. -/
inductive LoggerOption where
  | Level (lvl : Zlg.Level)
  | Pretty
deriving DecidableEq, Repr

/-- Running an option on the logger under construction. -/
def LoggerOption.apply (o : LoggerOption) (w : World) (l : Ptr) : World :=
  match o with
  | LoggerOption.Level lvl => w.setLogger l ((w.deref l).logger.Level lvl)
  | LoggerOption.Pretty =>
    w.store l { pretty := true, logger := (w.deref l).logger.Output Writer.console }

/-- The function passed to `once.Do` in `New`. -/
def setup (w : World) : World :=
  { w with
    setupRuns := w.setupRuns + 1
    zerolog :=
      { TimeFieldFormat := RFC3339
        CallerSkipFrameCount := 3
        DurationFieldInteger := true
        ErrorStackMarshaler := some StackMarshaler.marshalStack
        TimestampFunc := Clock.timeNowUTC } }

/-- The call `once.Do(f)`. -/
def onceDo (w : World) (f : World → World) : World :=
  if w.once then w else { f w with once := true }

/-- The logger every call of `New` starts from. -/
def baseline : Logger :=
  { pretty := false
    logger := ((((zerologNew Writer.stderr).Level InfoLevel).With).Timestamp.Caller).Logger }

/-- The function `New` of `zlg.go`. -/
def New (w : World) (opts : List LoggerOption) : World × Ptr :=
  let w1 := onceDo w setup
  let (w2, l) := w1.alloc baseline
  let w3 := opts.foldl (fun acc opt => opt.apply acc l) w2
  let w4 :=
    if (w3.deref l).pretty then
      { w3 with zerolog :=
          { w3.zerolog with ErrorStackMarshaler := some StackMarshaler.marshalStackPretty } }
    else w3
  (w4, l)

/-! ### Methods of `*Logger` -/

def WithLevel (w : World) (l : Ptr) (lvl : Level) : World × Ptr :=
  (w.setLogger l ((w.deref l).logger.Level lvl), l)

def With (w : World) (l : Ptr) (k : String) (v : Value) : World × Ptr :=
  match v with
  | Value.nil => (w, l)
  | Value.bool vv => (w.setLogger l (((w.deref l).logger.With).field k (Enc.bool vv)).Logger, l)
  | Value.string vv => (w.setLogger l (((w.deref l).logger.With).field k (Enc.str vv)).Logger, l)
  | Value.int vv => (w.setLogger l (((w.deref l).logger.With).field k (Enc.int vv)).Logger, l)
  | Value.uint vv => (w.setLogger l (((w.deref l).logger.With).field k (Enc.uint vv)).Logger, l)
  | Value.int64 vv => (w.setLogger l (((w.deref l).logger.With).field k (Enc.int64 vv)).Logger, l)
  | Value.uint64 vv =>
    (w.setLogger l (((w.deref l).logger.With).field k (Enc.uint64 vv)).Logger, l)
  | Value.float64 vv =>
    (w.setLogger l (((w.deref l).logger.With).field k (Enc.float64 vv)).Logger, l)
  | Value.duration vv =>
    (w.setLogger l
      (((w.deref l).logger.With).field k (Enc.dur vv w.zerolog.DurationFieldInteger)).Logger, l)
  | Value.time vv =>
    (w.setLogger l
      (((w.deref l).logger.With).field k (Enc.str (vv.Format RFC3339Nano))).Logger, l)
  | vv => (w.setLogger l (((w.deref l).logger.With).field k (Enc.iface vv)).Logger, l)

def WithError (w : World) (l : Ptr) (err : Option GoError) : World × Ptr :=
  ((Context.Err w ((w.deref l).logger.With).Stack err).1.setLogger l
    (Context.Err w ((w.deref l).logger.With).Stack err).2.Logger, l)

def Debug (w : World) (l : Ptr) (msg : String) : World × Outcome :=
  Event.Msg w ((w.deref l).logger.newEvent DebugLevel Done.nothing).2 msg

def Info (w : World) (l : Ptr) (msg : String) : World × Outcome :=
  Event.Msg w ((w.deref l).logger.newEvent InfoLevel Done.nothing).2 msg

def Error (w : World) (l : Ptr) (err : Option GoError) : World × Outcome :=
  Event.Send
    (Event.Err w (Event.Stack ((w.deref l).logger.newEvent ErrorLevel Done.nothing).2) err).1
    (Event.Err w (Event.Stack ((w.deref l).logger.newEvent ErrorLevel Done.nothing).2) err).2

def Panic (w : World) (l : Ptr) (msg : String) : World × Outcome :=
  match (w.deref l).logger.newEvent PanicLevel Done.panic with
  | (Outcome.returned, e) => Event.Msg w e msg
  | (o, _) => (w, o)

/-! ## Package log -/

/-- Modelled from the spec: the three formatting functions of package `fmt`
the facade calls; they are a parameter of the facade. -/
structure Fmt where
  Sprint : List Value → String
  Sprintf : String → List Value → String
  Sprintln : List Value → String

/-- The process before any package is initialised. -/
def boot : World :=
  { once := false, setupRuns := 0, zerolog := zerologDefaults, heap := [],
    logLogger := 0, stderr := [], stdout := [] }

/-- Initialisation of package `log`: `var Logger = zlg.New()`. -/
def logInit (w : World) : World :=
  match New w [] with
  | (w1, p) => { w1 with logLogger := p }

/-- The call `os.Exit(code)`. -/
def osExit (w : World) (code : Nat) : World × Outcome :=
  (w, Outcome.exited code)

/-- Sequencing of two statements: the second runs only when the first
returns; a panic or an exit of the first ends the enclosing function. -/
def andThen (r : World × Outcome) (next : World → World × Outcome) : World × Outcome :=
  match r with
  | (w, Outcome.returned) => next w
  | (w, o) => (w, o)

/-- A caller that runs `body` under a deferred `recover()`: a panic of the
body is caught and the caller returns normally. -/
def recovered (body : World → World × Outcome) (w : World) : World × Outcome :=
  match body w with
  | (w1, Outcome.panicked _) => (w1, Outcome.returned)
  | r => r

namespace log

def Fatal (fmt : Fmt) (w : World) (v : List Value) : World × Outcome :=
  andThen (Zlg.Panic w w.logLogger (fmt.Sprint v)) (fun w1 => osExit w1 1)

def Fatalf (fmt : Fmt) (w : World) (format : String) (v : List Value) : World × Outcome :=
  andThen (Zlg.Panic w w.logLogger (fmt.Sprintf format v)) (fun w1 => osExit w1 1)

def Fatalln (fmt : Fmt) (w : World) (v : List Value) : World × Outcome :=
  andThen (Zlg.Panic w w.logLogger (fmt.Sprintln v)) (fun w1 => osExit w1 1)

def Panic (fmt : Fmt) (w : World) (v : List Value) : World × Outcome :=
  Zlg.Panic w w.logLogger (fmt.Sprint v)

def Panicf (fmt : Fmt) (w : World) (format : String) (v : List Value) : World × Outcome :=
  Zlg.Panic w w.logLogger (fmt.Sprintf format v)

def Panicln (fmt : Fmt) (w : World) (v : List Value) : World × Outcome :=
  Zlg.Panic w w.logLogger (fmt.Sprintln v)

def Print (fmt : Fmt) (w : World) (v : List Value) : World × Outcome :=
  Zlg.Info w w.logLogger (fmt.Sprint v)

def Printf (fmt : Fmt) (w : World) (format : String) (v : List Value) : World × Outcome :=
  Zlg.Info w w.logLogger (fmt.Sprintf format v)

def Println (fmt : Fmt) (w : World) (v : List Value) : World × Outcome :=
  Zlg.Info w w.logLogger (fmt.Sprintln v)

def With (w : World) (k : String) (v : Value) : World :=
  match Zlg.With w w.logLogger k v with
  | (w1, p) => { w1 with logLogger := p }

def WithError (w : World) (err : Option GoError) : World :=
  match Zlg.WithError w w.logLogger err with
  | (w1, p) => { w1 with logLogger := p }

def Debug (w : World) (msg : String) : World × Outcome :=
  Zlg.Debug w w.logLogger msg

def Info (w : World) (msg : String) : World × Outcome :=
  Zlg.Info w w.logLogger msg

def Error (w : World) (err : Option GoError) : World × Outcome :=
  Zlg.Error w w.logLogger err

def WithLevel (w : World) (lvl : Level) : World :=
  match Zlg.WithLevel w w.logLogger lvl with
  | (w1, p) => { w1 with logLogger := p }

end log

/-! ## Vocabulary of the properties -/

/-- The effect of an option on the logger it is run on. -/
def LoggerOption.applyTo (o : LoggerOption) (v : Logger) : Logger :=
  match o with
  | LoggerOption.Level lvl => { v with logger := v.logger.Level lvl }
  | LoggerOption.Pretty => { pretty := true, logger := v.logger.Output Writer.console }

/-- The baseline logger with the options applied in order. -/
def configured (opts : List LoggerOption) : Logger :=
  opts.foldl (fun v opt => opt.applyTo v) baseline

/-- A sequence of calls of `New`, one per list of options, in order. -/
def runNews (w : World) (calls : List (List LoggerOption)) : World :=
  calls.foldl (fun acc opts => (New acc opts).1) w

/-- The closed set of value kinds the specification names. -/
inductive Kind where
  | boolean
  | string
  | int
  | uint
  | int64
  | uint64
  | float64
  | duration
  | timestamp
  | fallback
deriving DecidableEq, Repr

/-- The kind of a Go value as the specification classifies it; nil has none. -/
def Value.kind (v : Value) : Option Kind :=
  match v with
  | Value.nil => none
  | Value.bool _ => some Kind.boolean
  | Value.string _ => some Kind.string
  | Value.int _ => some Kind.int
  | Value.uint _ => some Kind.uint
  | Value.int64 _ => some Kind.int64
  | Value.uint64 _ => some Kind.uint64
  | Value.float64 _ => some Kind.float64
  | Value.duration _ => some Kind.duration
  | Value.time _ => some Kind.timestamp
  | Value.frames _ => some Kind.fallback
  | Value.other _ _ => some Kind.fallback

/-- The kind of the encoder a field was written with. -/
def Enc.encoder (e : Enc) : Kind :=
  match e with
  | Enc.bool _ => Kind.boolean
  | Enc.str _ => Kind.string
  | Enc.int _ => Kind.int
  | Enc.uint _ => Kind.uint
  | Enc.int64 _ => Kind.int64
  | Enc.uint64 _ => Kind.uint64
  | Enc.float64 _ => Kind.float64
  | Enc.dur _ _ => Kind.duration
  | Enc.time _ _ => Kind.timestamp
  | Enc.iface _ => Kind.fallback
  | Enc.timestamp _ _ => Kind.timestamp
  | Enc.caller _ => Kind.string

/-- How many fields of a list carry the key `k`. -/
def countKey (k : String) (fs : List Field) : Nat :=
  fs.countP (fun f => decide (f.key = k))

/-- The error and stack fields of a list of fields, in order. -/
def errorStackFields (fs : List Field) : List Field :=
  fs.filter (fun f => decide (f.key = ErrorFieldName) || decide (f.key = ErrorStackFieldName))

/-- The fields of the record a logger writes at `level` with message `msg`
under the settings `g`: level, context, hooks, message. -/
def recordFields (g : Globals) (z : ZLogger) (level : Level) (msg : String) : List Field :=
  (if level = NoLevel then [] else [⟨LevelFieldName, Enc.str (levelString level)⟩]) ++
    z.context ++ z.hooks.map (Hook.run g) ++
    (if msg = "" then [] else [⟨MessageFieldName, Enc.str msg⟩])

/-- The encoder call `With` makes for a non-nil value (the arms of its type
switch, read off as a function of the value). -/
def withEnc (g : Globals) (v : Value) : Enc :=
  match v with
  | Value.bool vv => Enc.bool vv
  | Value.string vv => Enc.str vv
  | Value.int vv => Enc.int vv
  | Value.uint vv => Enc.uint vv
  | Value.int64 vv => Enc.int64 vv
  | Value.uint64 vv => Enc.uint64 vv
  | Value.float64 vv => Enc.float64 vv
  | Value.duration vv => Enc.dur vv g.DurationFieldInteger
  | Value.time vv => Enc.str (vv.Format RFC3339Nano)
  | vv => Enc.iface vv

/-- The keys zerolog itself writes into a record of this package: level,
time, caller and message on every record, error and stack on a record of
`Error`. -/
def reservedKeys : List String :=
  [LevelFieldName, TimestampFieldName, CallerFieldName, MessageFieldName,
    ErrorFieldName, ErrorStackFieldName]

/-- The records written to standard error between two states of the process. -/
def written (before after : World) : List Record :=
  after.stderr.drop before.stderr.length

/-- The number of line feeds in a text, that is the number of lines it ends. -/
def lineBreaks (s : String) : Nat :=
  s.toList.count (Char.ofNat 10)

/-- The error field zerolog writes for an error: none for a nil error. -/
def errField (err : Option GoError) : List Field :=
  match err with
  | none => []
  | some e => [⟨ErrorFieldName, Enc.str e.text⟩]

/-- The record `Error(err)` writes through `l` when the error level is
enabled: level, context, the stack field of the marshaler (if any), the
error field, the hooks. -/
def errorRecord (w : World) (l : Ptr) (err : Option GoError) : Record :=
  { w := (w.deref l).logger.w
    level := ErrorLevel
    fields := [⟨LevelFieldName, Enc.str (levelString ErrorLevel)⟩] ++
      (w.deref l).logger.context ++ (errStack w true err).2 ++ errField err ++
      (w.deref l).logger.hooks.map (Hook.run w.zerolog) }

/-! ## Heap and construction lemmas -/

theorem deref_store (w : World) (p : Ptr) (v : Logger) (h : p < w.heap.length) :
    (w.store p v).deref p = v := by
  simp [World.deref, World.store, List.getD_eq_getElem?_getD, List.getElem?_set, h]

theorem deref_store_ne (w : World) (p q : Ptr) (v : Logger) (h : q ≠ p) :
    (w.store p v).deref q = w.deref q := by
  simp [World.deref, World.store, List.getD_eq_getElem?_getD, List.getElem?_set, h.symm]

theorem deref_alloc (w : World) (v : Logger) :
    (w.alloc v).1.deref (w.alloc v).2 = v := by
  simp [World.deref, World.alloc, List.getD_eq_getElem?_getD]

theorem store_store (w : World) (p : Ptr) (u v : Logger) :
    (w.store p u).store p v = w.store p v := by
  simp [World.store, List.set_set]

theorem store_deref (w : World) (p : Ptr) (h : p < w.heap.length) :
    w.store p (w.deref p) = w := by
  cases w with
  | mk o s z hp lg se so =>
    simp only [World.store, World.deref, World.mk.injEq, true_and, and_true]
    simp only at h
    rw [List.getD_eq_getElem?_getD, List.getElem?_eq_getElem h]
    simp only [Option.getD_some]
    apply List.ext_getElem (by simp)
    intro n h1 h2
    simp only [List.getElem_set]
    split
    · next hpn => subst hpn; rfl
    · rfl

theorem store_heap_length (w : World) (p : Ptr) (v : Logger) :
    (w.store p v).heap.length = w.heap.length := by
  simp [World.store]

theorem apply_eq (o : LoggerOption) (w : World) (l : Ptr) :
    o.apply w l = w.store l (o.applyTo (w.deref l)) := by
  cases o <;> rfl

theorem foldl_apply (opts : List LoggerOption) (w : World) (l : Ptr) (h : l < w.heap.length) :
    opts.foldl (fun acc opt => opt.apply acc l) w
      = w.store l (opts.foldl (fun v opt => opt.applyTo v) (w.deref l)) := by
  induction opts generalizing w with
  | nil => simp [store_deref w l h]
  | cons o os ih =>
    simp only [List.foldl_cons]
    rw [apply_eq, ih _ (by simpa [store_heap_length] using h), deref_store _ _ _ h, store_store]

theorem New_eq (w : World) (opts : List LoggerOption) :
    New w opts =
      ({ onceDo w setup with
          heap := w.heap ++ [configured opts]
          zerolog :=
            if (configured opts).pretty then
              { (onceDo w setup).zerolog with
                ErrorStackMarshaler := some StackMarshaler.marshalStackPretty }
            else (onceDo w setup).zerolog }, w.heap.length) := by
  have hh : (onceDo w setup).heap = w.heap := by
    unfold onceDo setup; split <;> rfl
  have hl : w.heap.length < ((onceDo w setup).alloc baseline).1.heap.length := by
    simp [World.alloc, hh]
  unfold New
  simp only []
  have h2 : ((onceDo w setup).alloc baseline).2 = w.heap.length := by simp [World.alloc, hh]
  rw [h2, foldl_apply _ _ _ hl]
  have hd : ((onceDo w setup).alloc baseline).1.deref w.heap.length = baseline := by
    have := deref_alloc (onceDo w setup) baseline
    rwa [h2] at this
  rw [hd, deref_store _ _ _ hl]
  show _ = _
  unfold configured
  split <;> simp [World.store, World.alloc, hh]

/-! ## Emission lemmas -/

theorem foldl_printf (st : List Frame) (w : World) :
    st.foldl (fun w1 frame => fmtPrintf w1 (framePrintf frame)) w
      = { w with stdout := w.stdout ++ st.map framePrintf } := by
  induction st generalizing w with
  | nil => simp
  | cons f fs ih =>
    rw [List.foldl_cons, ih]
    simp [fmtPrintf]

theorem marshalStackPretty_eq (w : World) (err : Option GoError) :
    marshalStackPretty w err
      = ({ w with stdout := w.stdout ++ ((errorsAs err).getD []).map framePrintf }, Value.nil) := by
  unfold marshalStackPretty
  cases errorsAs err with
  | none => simp
  | some st => simp [foldl_printf]

theorem marshalStack_eq (err : Option GoError) :
    marshalStack err = match errorsAs err with
      | none => Value.nil
      | some st => Value.frames st := by
  unfold marshalStack pkgerrorsMarshalStack
  cases h : errorsAs err <;> simp

theorem errStack_off (w : World) (err : Option GoError) :
    errStack w false err = (w, []) := by
  simp [errStack]

theorem errStack_none (w : World) (stack : Bool) (err : Option GoError)
    (h : w.zerolog.ErrorStackMarshaler = none) :
    errStack w stack err = (w, []) := by
  unfold errStack; rw [h]; cases stack <;> rfl

theorem errStack_structured (w : World) (err : Option GoError)
    (h : w.zerolog.ErrorStackMarshaler = some StackMarshaler.marshalStack) :
    errStack w true err =
      (w, match errorsAs err with
          | none => []
          | some st => [⟨ErrorStackFieldName, Enc.iface (Value.frames st)⟩]) := by
  unfold errStack; rw [h]
  simp only [StackMarshaler.call, marshalStack_eq, if_true]
  cases errorsAs err <;> rfl

theorem errStack_pretty (w : World) (err : Option GoError)
    (h : w.zerolog.ErrorStackMarshaler = some StackMarshaler.marshalStackPretty) :
    errStack w true err =
      ({ w with stdout := w.stdout ++ ((errorsAs err).getD []).map framePrintf }, []) := by
  unfold errStack; rw [h]
  simp only [StackMarshaler.call, marshalStackPretty_eq, if_true]

/-- The marshaler call leaves everything but standard output alone. -/
theorem errStack_frame (w : World) (stack : Bool) (err : Option GoError) :
    ∃ out, (errStack w stack err).1 = { w with stdout := w.stdout ++ out } := by
  cases stack with
  | false => exact ⟨[], by simp [errStack_off]⟩
  | true =>
    cases h : w.zerolog.ErrorStackMarshaler with
    | none => exact ⟨[], by simp [errStack_none _ _ _ h]⟩
    | some m =>
      cases m with
      | marshalStack => exact ⟨[], by simp [errStack_structured _ _ h]⟩
      | marshalStackPretty => exact ⟨_, by rw [errStack_pretty _ _ h]⟩

theorem should_iff (z : ZLogger) (lvl : Level) (h : DebugLevel ≤ lvl) :
    z.should lvl = true ↔ z.level ≤ lvl := by
  unfold ZLogger.should GlobalLevel TraceLevel
  unfold DebugLevel at h
  simp only [Bool.not_eq_true', Bool.or_eq_false_iff, decide_eq_false_iff_not, not_lt]
  constructor
  · intro h1; exact h1.1
  · intro h1; exact ⟨h1, le_trans (by decide) h⟩

theorem emit_eq (w : World) (z : ZLogger) (lvl : Level) (msg : String) :
    Event.Msg w (z.newEvent lvl Done.nothing).2 msg =
      if z.should lvl then
        ({ w with stderr := w.stderr ++
            [{ w := z.w, level := lvl, fields := recordFields w.zerolog z lvl msg }] },
          Outcome.returned)
      else (w, Outcome.returned) := by
  unfold ZLogger.newEvent
  split <;> simp [Event.Msg, recordFields]

theorem Error_eq (w : World) (l : Ptr) (err : Option GoError) :
    Error w l err =
      if (w.deref l).logger.should ErrorLevel then
        ({ (errStack w true err).1 with stderr := w.stderr ++ [errorRecord w l err] },
          Outcome.returned)
      else (w, Outcome.returned) := by
  obtain ⟨out, hout⟩ := errStack_frame w true err
  unfold Error ZLogger.newEvent
  split
  · cases err with
    | none =>
      simp [Event.Stack, Event.Err, Event.AnErr, Event.Send, Event.Msg, errField, hout,
        ErrorLevel, NoLevel, errorRecord]
    | some e =>
      simp [Event.Stack, Event.Err, Event.AnErr, Event.Send, Event.Msg, errField, hout,
        ErrorLevel, NoLevel, errorRecord]
  · simp [Event.Stack, Event.Err, Event.Send, Event.Msg]

theorem WithError_eq (w : World) (l : Ptr) (err : Option GoError) :
    WithError w l err =
      ((errStack w true err).1.setLogger l
        { (w.deref l).logger with
          stack := true
          context := (w.deref l).logger.context ++ (errStack w true err).2 ++ errField err }, l) := by
  unfold WithError Context.Err
  cases err with
  | none => simp [ZLogger.With, Context.Stack, Context.AnErr, Context.Logger, errField]
  | some e => simp [ZLogger.With, Context.Stack, Context.AnErr, Context.Logger, errField, Context.field]

/-! ## The claims -/

/-- C1: `With(k, nil)` returns the receiver itself and changes nothing: the
pointer returned is `l`, the world (and so the fields and level of `l`) is
the one before the call, and every later emission through the returned
pointer does what it would have done on `l` before the call. -/
theorem C1_with_nil_is_noop (w : World) (l : Ptr) (k : String) :
    With w l k Value.nil = (w, l) ∧
    ((With w l k Value.nil).1.deref (With w l k Value.nil).2).logger.context
      = (w.deref l).logger.context ∧
    ((With w l k Value.nil).1.deref (With w l k Value.nil).2).logger.level
      = (w.deref l).logger.level ∧
    (∀ msg, Debug (With w l k Value.nil).1 (With w l k Value.nil).2 msg = Debug w l msg) ∧
    (∀ msg, Info (With w l k Value.nil).1 (With w l k Value.nil).2 msg = Info w l msg) ∧
    (∀ err, Error (With w l k Value.nil).1 (With w l k Value.nil).2 err = Error w l err) :=
  ⟨rfl, rfl, rfl, fun _ => rfl, fun _ => rfl, fun _ => rfl⟩

theorem setLogger_deref (w : World) (l : Ptr) (z : ZLogger) (h : l < w.heap.length) :
    ((w.setLogger l z).deref l).logger = z := by
  unfold World.setLogger
  rw [deref_store _ _ _ h]

theorem append_singleton_ne {α : Type} (xs : List α) (r : α) : xs ≠ xs ++ [r] := by
  intro h
  have := congrArg List.length h
  simp at this

/-- C3: after `l.WithLevel(X)`, each of `Debug`, `Info` and `Error` writes a
record exactly when its severity is at least `X` (and writes nothing
otherwise); a logger built by `New()` with no options has level `Info`, its
`Debug("x")` writes no record and its `Info("x")` writes exactly one. -/
theorem C3_level_threshold (w : World) (l : Ptr) (X : Level) (msg : String)
    (err : Option GoError) (hl : l < w.heap.length) :
    ((∃ r, (Debug (WithLevel w l X).1 (WithLevel w l X).2 msg).1.stderr
          = (WithLevel w l X).1.stderr ++ [r]) ↔ X ≤ DebugLevel) ∧
    (¬ X ≤ DebugLevel → (Debug (WithLevel w l X).1 (WithLevel w l X).2 msg).1.stderr
          = (WithLevel w l X).1.stderr) ∧
    ((∃ r, (Info (WithLevel w l X).1 (WithLevel w l X).2 msg).1.stderr
          = (WithLevel w l X).1.stderr ++ [r]) ↔ X ≤ InfoLevel) ∧
    (¬ X ≤ InfoLevel → (Info (WithLevel w l X).1 (WithLevel w l X).2 msg).1.stderr
          = (WithLevel w l X).1.stderr) ∧
    ((∃ r, (Error (WithLevel w l X).1 (WithLevel w l X).2 err).1.stderr
          = (WithLevel w l X).1.stderr ++ [r]) ↔ X ≤ ErrorLevel) ∧
    (¬ X ≤ ErrorLevel → (Error (WithLevel w l X).1 (WithLevel w l X).2 err).1.stderr
          = (WithLevel w l X).1.stderr) ∧
    (∀ w0 : World,
      ((New w0 []).1.deref (New w0 []).2).logger.level = InfoLevel ∧
      (Debug (New w0 []).1 (New w0 []).2 "x").1.stderr = (New w0 []).1.stderr ∧
      ∃ r, (Info (New w0 []).1 (New w0 []).2 "x").1.stderr = (New w0 []).1.stderr ++ [r]) := by
  have hz : ((WithLevel w l X).1.deref (WithLevel w l X).2).logger.level = X := by
    unfold WithLevel
    simp only
    rw [setLogger_deref _ _ _ hl]
    rfl
  have hs : ∀ s : Level, DebugLevel ≤ s →
      (((WithLevel w l X).1.deref (WithLevel w l X).2).logger.should s = true ↔ X ≤ s) := by
    intro s h
    rw [should_iff _ _ h, hz]
  refine ⟨?_, ?_, ?_, ?_, ?_, ?_, ?_⟩
  · unfold Debug
    rw [emit_eq]
    by_cases h : X ≤ DebugLevel
    · simp [(hs DebugLevel (le_refl _)).2 h, h]
    · have h1 : ¬ ((WithLevel w l X).1.deref (WithLevel w l X).2).logger.should DebugLevel = true :=
        fun h2 => h ((hs DebugLevel (le_refl _)).1 h2)
      simp [h1, h, append_singleton_ne]
  · intro h
    unfold Debug
    rw [emit_eq]
    have h1 : ¬ ((WithLevel w l X).1.deref (WithLevel w l X).2).logger.should DebugLevel = true :=
      fun h2 => h ((hs DebugLevel (le_refl _)).1 h2)
    simp [h1]
  · unfold Info
    rw [emit_eq]
    by_cases h : X ≤ InfoLevel
    · simp [(hs InfoLevel (by decide)).2 h, h]
    · have h1 : ¬ ((WithLevel w l X).1.deref (WithLevel w l X).2).logger.should InfoLevel = true :=
        fun h2 => h ((hs InfoLevel (by decide)).1 h2)
      simp [h1, h, append_singleton_ne]
  · intro h
    unfold Info
    rw [emit_eq]
    have h1 : ¬ ((WithLevel w l X).1.deref (WithLevel w l X).2).logger.should InfoLevel = true :=
      fun h2 => h ((hs InfoLevel (by decide)).1 h2)
    simp [h1]
  · rw [Error_eq]
    obtain ⟨out, hout⟩ := errStack_frame (WithLevel w l X).1 true err
    by_cases h : X ≤ ErrorLevel
    · simp [(hs ErrorLevel (by decide)).2 h, h]
    · have h1 : ¬ ((WithLevel w l X).1.deref (WithLevel w l X).2).logger.should ErrorLevel = true :=
        fun h2 => h ((hs ErrorLevel (by decide)).1 h2)
      simp [h1, h, append_singleton_ne]
  · intro h
    rw [Error_eq]
    have h1 : ¬ ((WithLevel w l X).1.deref (WithLevel w l X).2).logger.should ErrorLevel = true :=
      fun h2 => h ((hs ErrorLevel (by decide)).1 h2)
    simp [h1]
  · intro w0
    have hd : (New w0 []).1.deref (New w0 []).2 = baseline := by
      rw [New_eq]
      simp [World.deref, configured, List.getD_eq_getElem?_getD]
    refine ⟨?_, ?_, ?_⟩
    · rw [hd]; rfl
    · unfold Debug
      rw [emit_eq, hd]
      have : baseline.logger.should DebugLevel = false := by decide
      simp [this]
    · unfold Info
      rw [emit_eq, hd]
      have : baseline.logger.should InfoLevel = true := by decide
      simp [this]

/-- Witness of C3 on the logger of `New()` with `WithLevel(Error)`. -/
theorem C3_level_threshold_witness :
    (0 < (New boot []).1.heap.length) ∧
    ((Info (WithLevel (New boot []).1 0 ErrorLevel).1 (WithLevel (New boot []).1 0 ErrorLevel).2
        "x").1.stderr = (WithLevel (New boot []).1 0 ErrorLevel).1.stderr) :=
  ⟨by decide,
    (C3_level_threshold (New boot []).1 0 ErrorLevel "x" none (by decide)).2.2.2.1 (by decide)⟩

theorem With_eq (w : World) (l : Ptr) (k : String) (v : Value) (hv : v ≠ Value.nil) :
    With w l k v =
      (w.setLogger l
        { (w.deref l).logger with
          context := (w.deref l).logger.context ++ [⟨k, withEnc w.zerolog v⟩] }, l) := by
  cases v <;> first | exact absurd rfl hv | rfl

theorem Info_eq (w : World) (l : Ptr) (msg : String) :
    Info w l msg =
      if (w.deref l).logger.should InfoLevel then
        ({ w with stderr := w.stderr ++
            [{ w := (w.deref l).logger.w, level := InfoLevel,
               fields := recordFields w.zerolog (w.deref l).logger InfoLevel msg }] },
          Outcome.returned)
      else (w, Outcome.returned) := by
  unfold Info
  rw [emit_eq]

theorem countKey_append (k : String) (xs ys : List Field) :
    countKey k (xs ++ ys) = countKey k xs + countKey k ys := by
  simp [countKey, List.countP_append]

theorem countKey_single (k : String) (e : Enc) : countKey k [⟨k, e⟩] = 1 := by
  simp [countKey]

theorem countKey_recordFields (g : Globals) (z : ZLogger) (lvl : Level) (msg : String)
    (k : String) (fs : List Field) :
    countKey k (recordFields g { z with context := z.context ++ fs } lvl msg)
      = countKey k (recordFields g z lvl msg) + countKey k fs := by
  simp only [recordFields, countKey_append]
  omega

theorem setLogger_stderr (w : World) (l : Ptr) (z : ZLogger) :
    (w.setLogger l z).stderr = w.stderr := rfl

theorem setLogger_zerolog (w : World) (l : Ptr) (z : ZLogger) :
    (w.setLogger l z).zerolog = w.zerolog := rfl

theorem setLogger_heap_length (w : World) (l : Ptr) (z : ZLogger) :
    (w.setLogger l z).heap.length = w.heap.length := by
  simp [World.setLogger, World.store]

theorem New_deref (w : World) (opts : List LoggerOption) :
    (New w opts).1.deref (New w opts).2 = configured opts := by
  rw [New_eq]
  simp [World.deref, List.getD_eq_getElem?_getD]

theorem New_valid (w : World) (opts : List LoggerOption) :
    (New w opts).2 < (New w opts).1.heap.length := by
  rw [New_eq]
  simp

theorem withEnc_kind (g : Globals) (v : Value) (hv : v ≠ Value.nil) :
    (v.kind ≠ some Kind.timestamp → some (withEnc g v).encoder = v.kind) ∧
    (v.kind = some Kind.timestamp → (withEnc g v).encoder = Kind.string) ∧
    (v.kind = some Kind.fallback → withEnc g v = Enc.iface v) := by
  cases v <;> first | exact absurd rfl hv | simp [withEnc, Value.kind, Enc.encoder]

/-- C2 as stated fails: a `time.Time` has kind timestamp, yet the field
`New().With("at", t)` adds is written with the string encoder (`Str`), not the
timestamp encoder; on a logger that already carries the key, the record
has two fields with that key, not exactly one; and so has the record of
`New().With("error", "x").Error(err)`, where `Error` writes the key itself. -/
theorem C2_counterexample :
    (Value.time ⟨0⟩).kind = some Kind.timestamp ∧
    ((With (New boot []).1 0 "at" (Value.time ⟨0⟩)).1.deref 0).logger.context
      = [⟨"at", Enc.str ((GoTime.mk 0).Format RFC3339Nano)⟩] ∧
    (Enc.str ((GoTime.mk 0).Format RFC3339Nano)).encoder = Kind.string ∧
    Kind.string ≠ Kind.timestamp ∧
    (Info (With (With (New boot []).1 0 "foo" (Value.string "a")).1 0 "foo"
        (Value.string "b")).1 0 "hello").1.stderr.map (fun r => countKey "foo" r.fields) = [2] ∧
    (Error (With (New boot []).1 0 "error" (Value.string "x")).1 0
        (some ⟨"boom", none⟩)).1.stderr.map (fun r => countKey "error" r.fields) = [2] := by
  refine ⟨rfl, rfl, rfl, by decide, by decide, by decide⟩

/-- C4, evaluated on the code: the three methods hand back the receiver and
change it in place.  On `l := New()` (address 0): `l.With("a", 1)` returns
`l` and `l` itself now carries the field; `l.WithLevel(Debug)` returns `l` and
the level of `l` itself is now Debug; `l.WithError(err)` returns `l` and `l`
itself now carries the error field.  The facade's `With`, `WithLevel` and
`WithError` bind `log.Logger` to the same address again, allocate no new
instance, and the instance bound before has been changed. -/
theorem C4_receiver_is_mutated :
    ((New boot []).1.deref 0).logger.context = [] ∧
    ((New boot []).1.deref 0).logger.level = InfoLevel ∧
    (With (New boot []).1 0 "a" (Value.int 1)).2 = 0 ∧
    ((With (New boot []).1 0 "a" (Value.int 1)).1.deref 0).logger.context
      = [⟨"a", Enc.int 1⟩] ∧
    (WithLevel (New boot []).1 0 DebugLevel).2 = 0 ∧
    ((WithLevel (New boot []).1 0 DebugLevel).1.deref 0).logger.level = DebugLevel ∧
    (WithError (New boot []).1 0 (some ⟨"boom", none⟩)).2 = 0 ∧
    ((WithError (New boot []).1 0 (some ⟨"boom", none⟩)).1.deref 0).logger.context
      = [⟨"error", Enc.str "boom"⟩] ∧
    (logInit boot).logLogger = 0 ∧
    (log.With (logInit boot) "a" (Value.int 1)).logLogger = 0 ∧
    (log.With (logInit boot) "a" (Value.int 1)).heap.length = (logInit boot).heap.length ∧
    ((log.With (logInit boot) "a" (Value.int 1)).deref 0).logger.context = [⟨"a", Enc.int 1⟩] ∧
    (log.WithLevel (logInit boot) DebugLevel).logLogger = 0 ∧
    (log.WithLevel (logInit boot) DebugLevel).heap.length = (logInit boot).heap.length ∧
    ((log.WithLevel (logInit boot) DebugLevel).deref 0).logger.level = DebugLevel ∧
    (log.WithError (logInit boot) (some ⟨"boom", none⟩)).logLogger = 0 ∧
    (log.WithError (logInit boot) (some ⟨"boom", none⟩)).heap.length
      = (logInit boot).heap.length ∧
    ((log.WithError (logInit boot) (some ⟨"boom", none⟩)).deref 0).logger.context
      = [⟨"error", Enc.str "boom"⟩] := by
  decide

theorem log_With_eq (w : World) (k : String) (v : Value) (hv : v ≠ Value.nil) :
    log.With w k v =
      w.setLogger w.logLogger
        { (w.deref w.logLogger).logger with
          context := (w.deref w.logLogger).logger.context ++ [⟨k, withEnc w.zerolog v⟩] } := by
  unfold log.With
  rw [With_eq _ _ _ _ hv]
  rfl

theorem withEnc_string (g : Globals) (s : String) : withEnc g (Value.string s) = Enc.str s := rfl

/-- C10 as stated fails: after the facade calls `With("env", "prod")` and
`With("env", "staging")`, the global instance carries two fields with key
`env` (prod, then staging), and the record `Info` writes has both. -/
theorem C10_counterexample :
    ((log.With (log.With (logInit boot) "env" (Value.string "prod")) "env"
        (Value.string "staging")).deref 0).logger.context
      = [⟨"env", Enc.str "prod"⟩, ⟨"env", Enc.str "staging"⟩] ∧
    (log.Info (log.With (log.With (logInit boot) "env" (Value.string "prod")) "env"
        (Value.string "staging")) "hello").1.stderr.map (fun r => countKey "env" r.fields)
      = [2] := by
  refine ⟨by decide, by decide⟩

/-- C10 (amended): the facade's `With` appends. After `With(k, v1)` and then
`With(k, v2)` with non-nil values the global binding is the same instance,
which carries, after the fields it had, a field `k` for `v1` and then a field
`k` for `v2` (for strings: the two texts): two more fields with key `k` than
before, the last one holding `v2`; a record `Info` then writes contains both. -/
theorem C10_global_with_appends (w : World) (k : String) (v1 v2 : Value) (msg : String)
    (hl : w.logLogger < w.heap.length) (h1 : v1 ≠ Value.nil) (h2 : v2 ≠ Value.nil) :
    (log.With (log.With w k v1) k v2).logLogger = w.logLogger ∧
    ∃ e1 e2 : Enc,
      ((log.With w k v1).deref w.logLogger).logger.context
        = (w.deref w.logLogger).logger.context ++ [⟨k, e1⟩] ∧
      ((log.With w k v2).deref w.logLogger).logger.context
        = (w.deref w.logLogger).logger.context ++ [⟨k, e2⟩] ∧
      (∀ s, v1 = Value.string s → e1 = Enc.str s) ∧
      (∀ s, v2 = Value.string s → e2 = Enc.str s) ∧
      ((log.With (log.With w k v1) k v2).deref w.logLogger).logger.context
        = (w.deref w.logLogger).logger.context ++ [⟨k, e1⟩, ⟨k, e2⟩] ∧
      countKey k ((log.With (log.With w k v1) k v2).deref w.logLogger).logger.context
        = countKey k (w.deref w.logLogger).logger.context + 2 ∧
      ((w.deref w.logLogger).logger.level ≤ InfoLevel →
        ∃ r, (log.Info (log.With (log.With w k v1) k v2) msg).1.stderr
              = (log.With (log.With w k v1) k v2).stderr ++ [r] ∧
          (⟨k, e1⟩ : Field) ∈ r.fields ∧ (⟨k, e2⟩ : Field) ∈ r.fields ∧
          countKey k r.fields
            = countKey k (recordFields w.zerolog (w.deref w.logLogger).logger InfoLevel msg)
              + 2) := by
  have hA : ((log.With w k v1).deref w.logLogger).logger =
      { (w.deref w.logLogger).logger with
        context := (w.deref w.logLogger).logger.context ++ [⟨k, withEnc w.zerolog v1⟩] } := by
    rw [log_With_eq _ _ _ h1]; exact setLogger_deref _ _ _ hl
  have hB : ((log.With w k v2).deref w.logLogger).logger =
      { (w.deref w.logLogger).logger with
        context := (w.deref w.logLogger).logger.context ++ [⟨k, withEnc w.zerolog v2⟩] } := by
    rw [log_With_eq _ _ _ h2]; exact setLogger_deref _ _ _ hl
  have hp : (log.With w k v1).logLogger = w.logLogger := by
    rw [log_With_eq _ _ _ h1]; rfl
  have hz : (log.With w k v1).zerolog = w.zerolog := by
    rw [log_With_eq _ _ _ h1]; rfl
  have hlen : (log.With w k v1).logLogger < (log.With w k v1).heap.length := by
    rw [hp, log_With_eq _ _ _ h1, setLogger_heap_length]; exact hl
  have hp2 : (log.With (log.With w k v1) k v2).logLogger = w.logLogger := by
    rw [log_With_eq _ _ _ h2]; exact hp
  have hz2 : (log.With (log.With w k v1) k v2).zerolog = w.zerolog := by
    rw [log_With_eq _ _ _ h2]; exact hz
  have hC : ((log.With (log.With w k v1) k v2).deref w.logLogger).logger =
      { (w.deref w.logLogger).logger with
        context := (w.deref w.logLogger).logger.context ++
          [⟨k, withEnc w.zerolog v1⟩, ⟨k, withEnc w.zerolog v2⟩] } := by
    rw [log_With_eq _ _ _ h2, ← hp, setLogger_deref _ _ _ hlen, hp, hA, hz]
    simp
  refine ⟨hp2, withEnc w.zerolog v1, withEnc w.zerolog v2, by rw [hA], by rw [hB], ?_, ?_,
    by rw [hC], ?_, ?_⟩
  · intro s h; subst h; rfl
  · intro s h; subst h; rfl
  · rw [hC]
    simp [countKey_append, countKey]
  · intro hlev
    have hsh : ((log.With (log.With w k v1) k v2).deref
        (log.With (log.With w k v1) k v2).logLogger).logger.should InfoLevel = true := by
      rw [should_iff _ _ (by decide), hp2, hC]
      exact hlev
    unfold log.Info
    rw [Info_eq, if_pos hsh]
    refine ⟨_, rfl, ?_, ?_, ?_⟩
    · simp only [hp2, hC, recordFields]
      simp
    · simp only [hp2, hC, recordFields]
      simp
    · simp only [hp2, hC, hz2]
      rw [countKey_recordFields]
      simp [countKey]

/-- Witness of C10 on the facade after start-up, with `env` set twice. -/
theorem C10_global_with_appends_witness :
    (logInit boot).logLogger < (logInit boot).heap.length ∧
    Value.string "prod" ≠ Value.nil ∧ Value.string "staging" ≠ Value.nil ∧
    (log.With (log.With (logInit boot) "env" (Value.string "prod")) "env"
      (Value.string "staging")).logLogger = (logInit boot).logLogger :=
  ⟨by decide, by decide, by decide,
    (C10_global_with_appends (logInit boot) "env" (Value.string "prod")
      (Value.string "staging") "hello" (by decide) (by decide) (by decide)).1⟩

theorem errStack_fields_congr (w w2 : World) (stack : Bool) (err : Option GoError)
    (h : w2.zerolog = w.zerolog) : (errStack w2 stack err).2 = (errStack w stack err).2 := by
  cases stack with
  | false => simp [errStack_off]
  | true =>
    cases hm : w.zerolog.ErrorStackMarshaler with
    | none => rw [errStack_none _ _ _ hm, errStack_none _ _ _ (by rw [h, hm])]
    | some m =>
      cases m with
      | marshalStack =>
        rw [errStack_structured _ _ hm, errStack_structured _ _ (by rw [h, hm])]
      | marshalStackPretty =>
        rw [errStack_pretty _ _ hm, errStack_pretty _ _ (by rw [h, hm])]

theorem errStack_zerolog (w : World) (stack : Bool) (err : Option GoError) :
    (errStack w stack err).1.zerolog = w.zerolog := by
  obtain ⟨out, h⟩ := errStack_frame w stack err
  rw [h]

theorem errStack_stderr (w : World) (stack : Bool) (err : Option GoError) :
    (errStack w stack err).1.stderr = w.stderr := by
  obtain ⟨out, h⟩ := errStack_frame w stack err
  rw [h]

theorem errStack_heap (w : World) (stack : Bool) (err : Option GoError) :
    (errStack w stack err).1.heap = w.heap := by
  obtain ⟨out, h⟩ := errStack_frame w stack err
  rw [h]

theorem errStack_deref (w : World) (stack : Bool) (err : Option GoError) (l : Ptr) :
    (errStack w stack err).1.deref l = w.deref l := by
  unfold World.deref
  rw [errStack_heap]

theorem errorStackFields_errStack (w : World) (stack : Bool) (err : Option GoError) :
    errorStackFields (errStack w stack err).2 = (errStack w stack err).2 := by
  cases stack with
  | false => simp [errStack_off, errorStackFields]
  | true =>
    cases hm : w.zerolog.ErrorStackMarshaler with
    | none => simp [errStack_none _ _ _ hm, errorStackFields]
    | some m =>
      cases m with
      | marshalStack =>
        rw [errStack_structured _ _ hm]
        cases errorsAs err <;> simp [errorStackFields]
      | marshalStackPretty => simp [errStack_pretty _ _ hm, errorStackFields]

theorem errorStackFields_errField (err : Option GoError) :
    errorStackFields (errField err) = errField err := by
  cases err <;> simp [errorStackFields, errField]

theorem errorStackFields_append (xs ys : List Field) :
    errorStackFields (xs ++ ys) = errorStackFields xs ++ errorStackFields ys := by
  simp [errorStackFields]

theorem WithError_deref (w : World) (l : Ptr) (err : Option GoError) (hl : l < w.heap.length) :
    ((WithError w l err).1.deref l).logger =
      { (w.deref l).logger with
        stack := true
        context := (w.deref l).logger.context ++ (errStack w true err).2 ++ errField err } := by
  rw [WithError_eq]
  apply setLogger_deref
  rw [errStack_heap]; exact hl

theorem WithError_zerolog (w : World) (l : Ptr) (err : Option GoError) :
    (WithError w l err).1.zerolog = w.zerolog := by
  rw [WithError_eq]
  show (errStack w true err).1.zerolog = _
  exact errStack_zerolog _ _ _

theorem WithError_stderr (w : World) (l : Ptr) (err : Option GoError) :
    (WithError w l err).1.stderr = w.stderr := by
  rw [WithError_eq]
  show (errStack w true err).1.stderr = _
  exact errStack_stderr _ _ _

/-- C5 as stated fails: with `err := errors.New("test")`, the record of
`New().Error(err)` has one error field, the record of
`New().WithError(err).Error(err)` has two. -/
theorem C5_counterexample :
    (Error (New boot []).1 0 (some ⟨"test", none⟩)).1.stderr.map
        (fun r => errorStackFields r.fields) = [[⟨"error", Enc.str "test"⟩]] ∧
    (Error (WithError (New boot []).1 0 (some ⟨"test", none⟩)).1 0
        (some ⟨"test", none⟩)).1.stderr.map (fun r => errorStackFields r.fields)
      = [[⟨"error", Enc.str "test"⟩, ⟨"error", Enc.str "test"⟩]] := by
  refine ⟨by decide, by decide⟩

theorem errorStackFields_hooks (g : Globals) (hooks : List Hook) :
    errorStackFields (hooks.map (Hook.run g)) = [] := by
  induction hooks with
  | nil => rfl
  | cons h hs ih =>
    have : errorStackFields [Hook.run g h] = [] := by
      cases h <;> simp [errorStackFields, Hook.run, TimestampFieldName, CallerFieldName,
        ErrorFieldName, ErrorStackFieldName]
    rw [List.map_cons, ← List.singleton_append, errorStackFields_append, this, ih]
    rfl

theorem errorStackFields_record (g : Globals) (lvl : String) (ctx sf : List Field)
    (err : Option GoError) (hooks : List Hook) :
    errorStackFields ([⟨LevelFieldName, Enc.str lvl⟩] ++ ctx ++ sf ++ errField err ++
        hooks.map (Hook.run g))
      = errorStackFields ctx ++ errorStackFields sf ++ errField err := by
  have h0 : errorStackFields [⟨LevelFieldName, Enc.str lvl⟩] = [] := by
    simp [errorStackFields, LevelFieldName, ErrorFieldName, ErrorStackFieldName]
  simp only [errorStackFields_append, errorStackFields_hooks, errorStackFields_errField, h0,
    List.nil_append, List.append_nil]

/-- C5 (amended): `New().Error(err)` and `New().WithError(err).Error(err)`
each write one record; the second holds the same error and stack fields as
the first (every such field of one occurs in the other), but holds them
twice: its error and stack fields are those of the first record, followed by
those of the first record again (once from the context `WithError` built,
once from `Error` itself). -/
theorem C5_error_fields_repeat (w : World) (err : Option GoError) :
    ∃ r1 r2 : Record,
      (Error (New w []).1 (New w []).2 err).1.stderr = (New w []).1.stderr ++ [r1] ∧
      (Error (WithError (New w []).1 (New w []).2 err).1 (New w []).2 err).1.stderr
        = (New w []).1.stderr ++ [r2] ∧
      errorStackFields r2.fields = errorStackFields r1.fields ++ errorStackFields r1.fields ∧
      (∀ f, f ∈ errorStackFields r2.fields ↔ f ∈ errorStackFields r1.fields) := by
  have hd := New_deref w []
  have hv := New_valid w []
  have hc : (configured []).logger.context = [] := rfl
  have hs1 : ((New w []).1.deref (New w []).2).logger.should ErrorLevel = true := by
    rw [hd]; decide
  have hs2 : (((WithError (New w []).1 (New w []).2 err).1.deref (New w []).2).logger.should
      ErrorLevel) = true := by
    rw [should_iff _ _ (by decide), WithError_deref _ _ _ hv, hd]
    show (configured []).logger.level ≤ ErrorLevel
    decide
  have hf : (errStack (WithError (New w []).1 (New w []).2 err).1 true err).2
      = (errStack (New w []).1 true err).2 :=
    errStack_fields_congr _ _ _ _ (WithError_zerolog _ _ _)
  have e1 : (Error (New w []).1 (New w []).2 err).1.stderr
      = (New w []).1.stderr ++ [errorRecord (New w []).1 (New w []).2 err] := by
    rw [Error_eq, if_pos hs1]
  have e2 : (Error (WithError (New w []).1 (New w []).2 err).1 (New w []).2 err).1.stderr
      = (New w []).1.stderr ++
          [errorRecord (WithError (New w []).1 (New w []).2 err).1 (New w []).2 err] := by
    rw [Error_eq, if_pos hs2]
    show (WithError (New w []).1 (New w []).2 err).1.stderr ++ _ = _
    rw [WithError_stderr]
  have key : errorStackFields
        (errorRecord (WithError (New w []).1 (New w []).2 err).1 (New w []).2 err).fields
      = errorStackFields (errorRecord (New w []).1 (New w []).2 err).fields
        ++ errorStackFields (errorRecord (New w []).1 (New w []).2 err).fields := by
    unfold errorRecord
    simp only []
    rw [errorStackFields_record, errorStackFields_record, hf, WithError_deref _ _ _ hv, hd]
    simp only [hc, List.nil_append, errorStackFields_append, errorStackFields_errStack,
      errorStackFields_errField]
    simp [errorStackFields]
  exact ⟨_, _, e1, e2, key, fun f => by rw [key]; simp⟩

theorem WithError_stdout (w : World) (l : Ptr) (err : Option GoError) :
    (WithError w l err).1.stdout = (errStack w true err).1.stdout := by
  rw [WithError_eq]
  rfl

theorem Panic_eq (w : World) (l : Ptr) (msg : String) :
    Panic w l msg =
      if (w.deref l).logger.should PanicLevel then
        ({ w with stderr := w.stderr ++
            [{ w := (w.deref l).logger.w, level := PanicLevel,
               fields := recordFields w.zerolog (w.deref l).logger PanicLevel msg }] },
          Outcome.panicked msg)
      else (w, Outcome.panicked "") := by
  unfold Panic ZLogger.newEvent
  by_cases h : (w.deref l).logger.should PanicLevel = true
  · simp [h, Event.Msg, recordFields]
  · simp [h]

theorem Panic_initial (msg : String) :
    (Panic (logInit boot) (logInit boot).logLogger msg).2 = Outcome.panicked msg ∧
    (Panic (logInit boot) (logInit boot).logLogger msg).1.stderr.length = 1 := by
  have hs : ((logInit boot).deref (logInit boot).logLogger).logger.should PanicLevel = true := by
    decide
  rw [Panic_eq, if_pos hs]
  exact ⟨rfl, rfl⟩

theorem Panic_always (w : World) (l : Ptr) (msg : String) :
    ∃ v, (Panic w l msg).2 = Outcome.panicked v := by
  rw [Panic_eq]
  split
  · exact ⟨msg, rfl⟩
  · exact ⟨"", rfl⟩

theorem andThen_panicked (r : World × Outcome) (next : World → World × Outcome) (v : String)
    (h : r.2 = Outcome.panicked v) : andThen r next = (r.1, Outcome.panicked v) := by
  obtain ⟨w, o⟩ := r
  simp only at h
  subst h
  rfl

theorem recovered_panicked (body : World → World × Outcome) (w : World) (v : String)
    (h : (body w).2 = Outcome.panicked v) : recovered body w = ((body w).1, Outcome.returned) := by
  unfold recovered
  generalize body w = r at h
  obtain ⟨w1, o⟩ := r
  simp only at h
  subst h
  rfl

/-- C7, evaluated on the code: in a process that has just started, `Fatal`,
`Fatalf` and `Fatalln` write the record and then end in the panic raised by
`Logger.Panic`, carrying the formatted text; the statement `os.Exit(1)` that
follows is not executed (the outcome is not an exit).  Under a caller that
recovers the panic, the call returns normally and the process goes on.  In
any state at all, none of the three ends in `os.Exit`. -/
theorem C7_fatal_does_not_reach_exit (fmt : Fmt) (format : String) (v : List Value) :
    (log.Fatal fmt (logInit boot) v).2 = Outcome.panicked (fmt.Sprint v) ∧
    (log.Fatalf fmt (logInit boot) format v).2 = Outcome.panicked (fmt.Sprintf format v) ∧
    (log.Fatalln fmt (logInit boot) v).2 = Outcome.panicked (fmt.Sprintln v) ∧
    (log.Fatal fmt (logInit boot) v).1.stderr.length = 1 ∧
    (recovered (fun w => log.Fatal fmt w v) (logInit boot)).2 = Outcome.returned ∧
    (recovered (fun w => log.Fatalf fmt w format v) (logInit boot)).2 = Outcome.returned ∧
    (recovered (fun w => log.Fatalln fmt w v) (logInit boot)).2 = Outcome.returned ∧
    (∀ (w : World) (code : Nat),
      (log.Fatal fmt w v).2 ≠ Outcome.exited code ∧
      (log.Fatalf fmt w format v).2 ≠ Outcome.exited code ∧
      (log.Fatalln fmt w v).2 ≠ Outcome.exited code) := by
  have h1 : ∀ msg, andThen (Panic (logInit boot) (logInit boot).logLogger msg)
      (fun w1 => osExit w1 1)
        = ((Panic (logInit boot) (logInit boot).logLogger msg).1, Outcome.panicked msg) :=
    fun msg => andThen_panicked _ _ _ (Panic_initial msg).1
  have hg : ∀ (w : World) (msg : String) (code : Nat),
      (andThen (Panic w w.logLogger msg) (fun w1 => osExit w1 1)).2 ≠ Outcome.exited code := by
    intro w msg code
    obtain ⟨x, hx⟩ := Panic_always w w.logLogger msg
    rw [andThen_panicked _ _ _ hx]
    simp
  refine ⟨?_, ?_, ?_, ?_, ?_, ?_, ?_, ?_⟩
  · unfold log.Fatal; rw [h1]
  · unfold log.Fatalf; rw [h1]
  · unfold log.Fatalln; rw [h1]
  · unfold log.Fatal; rw [h1]; exact (Panic_initial _).2
  · rw [recovered_panicked _ _ (fmt.Sprint v)]
    unfold log.Fatal; rw [h1]
  · rw [recovered_panicked _ _ (fmt.Sprintf format v)]
    unfold log.Fatalf; rw [h1]
  · rw [recovered_panicked _ _ (fmt.Sprintln v)]
    unfold log.Fatalln; rw [h1]
  · intro w code
    exact ⟨hg w _ code, hg w _ code, hg w _ code⟩

theorem applyTo_pretty (o : LoggerOption) (v : Logger) (h : v.pretty = true) :
    (o.applyTo v).pretty = true := by
  cases o <;> simp [LoggerOption.applyTo, h]

theorem foldl_pretty (opts : List LoggerOption) (v : Logger) (h : v.pretty = true) :
    (opts.foldl (fun v opt => opt.applyTo v) v).pretty = true := by
  induction opts generalizing v with
  | nil => exact h
  | cons o os ih => exact ih _ (applyTo_pretty o v h)

theorem foldl_pretty_mem (opts : List LoggerOption) (v : Logger)
    (h : LoggerOption.Pretty ∈ opts) :
    (opts.foldl (fun v opt => opt.applyTo v) v).pretty = true := by
  induction opts generalizing v with
  | nil => cases h
  | cons o os ih =>
    rcases List.mem_cons.1 h with h1 | h1
    · subst h1
      exact foldl_pretty os _ rfl
    · exact ih _ h1

theorem foldl_pretty_not_mem (opts : List LoggerOption) (v : Logger)
    (h : LoggerOption.Pretty ∉ opts) :
    (opts.foldl (fun v opt => opt.applyTo v) v).pretty = v.pretty := by
  induction opts generalizing v with
  | nil => rfl
  | cons o os ih =>
    have h1 : o ≠ LoggerOption.Pretty := fun e => h (by rw [e]; exact List.mem_cons_self _ _)
    have h2 : LoggerOption.Pretty ∉ os := fun e => h (List.mem_cons_of_mem _ e)
    rw [List.foldl_cons, ih _ h2]
    cases o with
    | Level lvl => rfl
    | Pretty => exact absurd rfl h1

theorem configured_pretty (opts : List LoggerOption) :
    (configured opts).pretty = decide (LoggerOption.Pretty ∈ opts) := by
  unfold configured
  by_cases h : LoggerOption.Pretty ∈ opts
  · rw [foldl_pretty_mem _ _ h]; simp [h]
  · rw [foldl_pretty_not_mem _ _ h]; simp [h, baseline]

theorem New_marshaler (w : World) (opts : List LoggerOption) :
    (New w opts).1.zerolog.ErrorStackMarshaler =
      if LoggerOption.Pretty ∈ opts then some StackMarshaler.marshalStackPretty
      else (onceDo w setup).zerolog.ErrorStackMarshaler := by
  rw [New_eq]
  simp only [configured_pretty]
  by_cases h : LoggerOption.Pretty ∈ opts <;> simp [h]

theorem New_once (w : World) (opts : List LoggerOption) : (New w opts).1.once = true := by
  rw [New_eq]
  show (onceDo w setup).once = true
  unfold onceDo
  split
  · assumption
  · rfl

theorem onceDo_done (w : World) (f : World → World) (h : w.once = true) : onceDo w f = w := by
  unfold onceDo
  rw [if_pos h]

theorem runNews_append (w : World) (a b : List (List LoggerOption)) :
    runNews w (a ++ b) = runNews (runNews w a) b := by
  simp [runNews, List.foldl_append]

theorem runNews_keeps_pretty (calls : List (List LoggerOption)) (w : World)
    (h1 : w.once = true)
    (h2 : w.zerolog.ErrorStackMarshaler = some StackMarshaler.marshalStackPretty) :
    (runNews w calls).zerolog.ErrorStackMarshaler = some StackMarshaler.marshalStackPretty := by
  induction calls generalizing w with
  | nil => exact h2
  | cons c cs ih =>
    show (runNews (New w c).1 cs).zerolog.ErrorStackMarshaler = _
    apply ih _ (New_once w c)
    rw [New_marshaler, onceDo_done _ _ h1, h2]
    simp

/-- C8: in any sequence of `New` calls, from any state, once a call has the
option `Pretty()` the process-wide stack marshaler is `marshalStackPretty`
after that call and after every later call, whatever their options; and it
is what every instance then uses, whenever it was built: `WithError` through
any pointer prints the frames and adds the error field without a stack
field. -/
theorem C8_pretty_is_sticky (w : World) (pre post : List (List LoggerOption))
    (opts : List LoggerOption) (hp : LoggerOption.Pretty ∈ opts) :
    (runNews w (pre ++ [opts])).zerolog.ErrorStackMarshaler
      = some StackMarshaler.marshalStackPretty ∧
    (runNews w (pre ++ [opts] ++ post)).zerolog.ErrorStackMarshaler
      = some StackMarshaler.marshalStackPretty ∧
    (∀ (l : Ptr) (err : Option GoError), l < (runNews w (pre ++ [opts] ++ post)).heap.length →
      (WithError (runNews w (pre ++ [opts] ++ post)) l err).1.stdout
        = (runNews w (pre ++ [opts] ++ post)).stdout ++
            ((errorsAs err).getD []).map framePrintf ∧
      ((WithError (runNews w (pre ++ [opts] ++ post)) l err).1.deref l).logger.context
        = ((runNews w (pre ++ [opts] ++ post)).deref l).logger.context ++ errField err) := by
  have hA : (runNews w (pre ++ [opts])).zerolog.ErrorStackMarshaler
      = some StackMarshaler.marshalStackPretty := by
    rw [runNews_append]
    show (New (runNews w pre) opts).1.zerolog.ErrorStackMarshaler = _
    rw [New_marshaler, if_pos hp]
  have hO : (runNews w (pre ++ [opts])).once = true := by
    rw [runNews_append]
    exact New_once _ _
  have hB : (runNews w (pre ++ [opts] ++ post)).zerolog.ErrorStackMarshaler
      = some StackMarshaler.marshalStackPretty := by
    rw [runNews_append]
    exact runNews_keeps_pretty post _ hO hA
  refine ⟨hA, hB, ?_⟩
  intro l err hl
  have hes := errStack_pretty _ err hB
  refine ⟨by rw [WithError_stdout, hes], ?_⟩
  rw [WithError_deref _ _ _ hl, hes]
  simp

/-- Witness of C8: `New()`, then `New(Pretty())`, then `New(Level(Debug))`. -/
theorem C8_pretty_is_sticky_witness :
    LoggerOption.Pretty ∈ [LoggerOption.Pretty] ∧
    (runNews boot ([[]] ++ [[LoggerOption.Pretty]] ++ [[LoggerOption.Level DebugLevel]])
      ).zerolog.ErrorStackMarshaler = some StackMarshaler.marshalStackPretty :=
  ⟨by decide,
    (C8_pretty_is_sticky boot [[]] [[LoggerOption.Level DebugLevel]] [LoggerOption.Pretty]
      (by decide)).2.1⟩

theorem New_later (w : World) (opts : List LoggerOption) (h : w.once = true) :
    (New w opts).1.setupRuns = w.setupRuns ∧
    (New w opts).1.once = true ∧
    (New w opts).1.zerolog.TimeFieldFormat = w.zerolog.TimeFieldFormat ∧
    (New w opts).1.zerolog.CallerSkipFrameCount = w.zerolog.CallerSkipFrameCount ∧
    (New w opts).1.zerolog.DurationFieldInteger = w.zerolog.DurationFieldInteger ∧
    (New w opts).1.zerolog.TimestampFunc = w.zerolog.TimestampFunc ∧
    (New w opts).1.zerolog.ErrorStackMarshaler =
      (if LoggerOption.Pretty ∈ opts then some StackMarshaler.marshalStackPretty
       else w.zerolog.ErrorStackMarshaler) := by
  have hm := New_marshaler w opts
  rw [onceDo_done _ _ h] at hm
  refine ⟨?_, New_once w opts, ?_, ?_, ?_, ?_, hm⟩ <;>
    · rw [New_eq, onceDo_done _ _ h]
      try simp only []
      try first
        | rfl
        | (split <;> rfl)

theorem runNews_later (calls : List (List LoggerOption)) (w : World) (h : w.once = true) :
    (runNews w calls).setupRuns = w.setupRuns ∧
    (runNews w calls).once = true ∧
    (runNews w calls).zerolog.TimeFieldFormat = w.zerolog.TimeFieldFormat ∧
    (runNews w calls).zerolog.CallerSkipFrameCount = w.zerolog.CallerSkipFrameCount ∧
    (runNews w calls).zerolog.DurationFieldInteger = w.zerolog.DurationFieldInteger ∧
    (runNews w calls).zerolog.TimestampFunc = w.zerolog.TimestampFunc := by
  induction calls generalizing w with
  | nil => exact ⟨rfl, h, rfl, rfl, rfl, rfl⟩
  | cons c cs ih =>
    obtain ⟨a1, a2, a3, a4, a5, a6, _⟩ := New_later w c h
    obtain ⟨b1, b2, b3, b4, b5, b6⟩ := ih (New w c).1 a2
    exact ⟨b1.trans a1, b2, b3.trans a3, b4.trans a4, b5.trans a5, b6.trans a6⟩

theorem New_first (opts : List LoggerOption) :
    (New boot opts).1.setupRuns = 1 ∧
    (New boot opts).1.once = true ∧
    (New boot opts).1.zerolog.TimeFieldFormat = RFC3339 ∧
    (New boot opts).1.zerolog.CallerSkipFrameCount = 3 ∧
    (New boot opts).1.zerolog.DurationFieldInteger = true ∧
    (New boot opts).1.zerolog.TimestampFunc = Clock.timeNowUTC ∧
    (New boot opts).1.zerolog.ErrorStackMarshaler =
      (if LoggerOption.Pretty ∈ opts then some StackMarshaler.marshalStackPretty
       else some StackMarshaler.marshalStack) := by
  have hm := New_marshaler boot opts
  refine ⟨?_, New_once boot opts, ?_, ?_, ?_, ?_, hm⟩ <;>
    · rw [New_eq]
      simp only []
      first
        | rfl
        | (split <;> rfl)

/-- C9 as stated fails: after `New()` a later call `New(Pretty())` does not
leave the global settings as they are: the stack marshaler, `marshalStack`
before the call, is `marshalStackPretty` after it. -/
theorem C9_counterexample :
    (New boot []).1.once = true ∧
    (New boot []).1.zerolog.ErrorStackMarshaler = some StackMarshaler.marshalStack ∧
    (New (New boot []).1 [LoggerOption.Pretty]).1.zerolog.ErrorStackMarshaler
      = some StackMarshaler.marshalStackPretty ∧
    (New (New boot []).1 [LoggerOption.Pretty]).1.zerolog ≠ (New boot []).1.zerolog := by
  refine ⟨by decide, by decide, by decide, by decide⟩

/-- C9 (amended): in a process that makes one or more `New` calls, the
one-time setup runs exactly once, during the first call, and sets the time
format, caller skip count 3, integer durations, the UTC timestamp source and
the stack marshaler `marshalStack`; whatever calls follow, the setup has
still run once and the first four settings are the ones it made.  A later
call skips the setup and leaves the time format, caller skip count, duration
and timestamp settings as they are; the stack marshaler it leaves as it is
unless its options include `Pretty()`, in which case it sets
`marshalStackPretty` (as the first call also does after the setup).  Every
call returns a new instance holding the baseline (level Info, timestamp and
caller hooks, no fields, JSON to standard error) with its options applied
in order. -/
theorem C9_setup_runs_once (first : List LoggerOption) (rest : List (List LoggerOption)) :
    ((New boot first).1.setupRuns = 1 ∧
      (New boot first).1.once = true ∧
      (New boot first).1.zerolog.TimeFieldFormat = RFC3339 ∧
      (New boot first).1.zerolog.CallerSkipFrameCount = 3 ∧
      (New boot first).1.zerolog.DurationFieldInteger = true ∧
      (New boot first).1.zerolog.TimestampFunc = Clock.timeNowUTC ∧
      (New boot first).1.zerolog.ErrorStackMarshaler =
        (if LoggerOption.Pretty ∈ first then some StackMarshaler.marshalStackPretty
         else some StackMarshaler.marshalStack)) ∧
    ((runNews boot (first :: rest)).setupRuns = 1 ∧
      (runNews boot (first :: rest)).zerolog.TimeFieldFormat = RFC3339 ∧
      (runNews boot (first :: rest)).zerolog.CallerSkipFrameCount = 3 ∧
      (runNews boot (first :: rest)).zerolog.DurationFieldInteger = true ∧
      (runNews boot (first :: rest)).zerolog.TimestampFunc = Clock.timeNowUTC) ∧
    (∀ (w : World) (opts : List LoggerOption), w.once = true →
      (New w opts).1.setupRuns = w.setupRuns ∧
      (New w opts).1.once = true ∧
      (New w opts).1.zerolog.TimeFieldFormat = w.zerolog.TimeFieldFormat ∧
      (New w opts).1.zerolog.CallerSkipFrameCount = w.zerolog.CallerSkipFrameCount ∧
      (New w opts).1.zerolog.DurationFieldInteger = w.zerolog.DurationFieldInteger ∧
      (New w opts).1.zerolog.TimestampFunc = w.zerolog.TimestampFunc ∧
      (New w opts).1.zerolog.ErrorStackMarshaler =
        (if LoggerOption.Pretty ∈ opts then some StackMarshaler.marshalStackPretty
         else w.zerolog.ErrorStackMarshaler)) ∧
    (∀ (w : World) (opts : List LoggerOption),
      (New w opts).2 = w.heap.length ∧
      (New w opts).1.heap.length = w.heap.length + 1 ∧
      (New w opts).1.deref (New w opts).2 = configured opts ∧
      (∀ p, p < w.heap.length → (New w opts).1.deref p = w.deref p)) ∧
    (configured [] = baseline ∧
      (∀ (opts : List LoggerOption) (o : LoggerOption),
        configured (opts ++ [o]) = o.applyTo (configured opts)) ∧
      baseline.pretty = false ∧
      baseline.logger.w = Writer.stderr ∧
      baseline.logger.level = InfoLevel ∧
      baseline.logger.context = [] ∧
      baseline.logger.hooks = [Hook.timestampHook, Hook.callerHook]) := by
  refine ⟨New_first first, ?_, New_later, ?_, ?_⟩
  · obtain ⟨a1, a2, a3, a4, a5, a6, _⟩ := New_first first
    obtain ⟨b1, _, b3, b4, b5, b6⟩ := runNews_later rest (New boot first).1 a2
    exact ⟨b1.trans a1, b3.trans a3, b4.trans a4, b5.trans a5, b6.trans a6⟩
  · intro w opts
    refine ⟨by rw [New_eq], by rw [New_eq]; simp, New_deref w opts, ?_⟩
    intro p hp
    rw [New_eq]
    simp [World.deref, List.getD_eq_getElem?_getD, List.getElem?_append_left hp]
  · refine ⟨rfl, ?_, rfl, rfl, rfl, rfl, rfl⟩
    intro opts o
    simp [configured, List.foldl_append]

/-- Witness of C9: a later call `New(Level(Debug))` after `New()`. -/
theorem C9_setup_runs_once_witness :
    (New boot []).1.once = true ∧
    (New (New boot []).1 [LoggerOption.Level DebugLevel]).1.setupRuns
      = (New boot []).1.setupRuns :=
  ⟨by decide,
    ((C9_setup_runs_once [] []).2.2.1 (New boot []).1 [LoggerOption.Level DebugLevel]
      (by decide)).1⟩

/-! ## Records written after `With` -/

theorem written_of_append (w w2 : World) (rs : List Record)
    (h : w2.stderr = w.stderr ++ rs) : written w w2 = rs := by
  simp [written, h]

theorem Debug_written (w : World) (l : Ptr) (msg : String) :
    written w (Debug w l msg).1 =
      if (w.deref l).logger.should DebugLevel then
        [{ w := (w.deref l).logger.w, level := DebugLevel,
           fields := recordFields w.zerolog (w.deref l).logger DebugLevel msg }]
      else [] := by
  apply written_of_append
  unfold Debug
  rw [emit_eq]
  split <;> simp

theorem Info_written (w : World) (l : Ptr) (msg : String) :
    written w (Info w l msg).1 =
      if (w.deref l).logger.should InfoLevel then
        [{ w := (w.deref l).logger.w, level := InfoLevel,
           fields := recordFields w.zerolog (w.deref l).logger InfoLevel msg }]
      else [] := by
  apply written_of_append
  rw [Info_eq]
  split <;> simp

theorem Panic_written (w : World) (l : Ptr) (msg : String) :
    written w (Panic w l msg).1 =
      if (w.deref l).logger.should PanicLevel then
        [{ w := (w.deref l).logger.w, level := PanicLevel,
           fields := recordFields w.zerolog (w.deref l).logger PanicLevel msg }]
      else [] := by
  apply written_of_append
  rw [Panic_eq]
  split <;> simp

theorem Error_written (w : World) (l : Ptr) (err : Option GoError) :
    written w (Error w l err).1 =
      if (w.deref l).logger.should ErrorLevel then [errorRecord w l err] else [] := by
  apply written_of_append
  rw [Error_eq]
  split
  · show w.stderr ++ _ = _
    rfl
  · simp

theorem bump_written (k : String) (f : Field) (b : Bool) (r r2 : Record)
    (hc : countKey k r2.fields = countKey k r.fields + 1) (hf : f ∈ r2.fields) :
    ((if b then [r2] else []).map (fun x => countKey k x.fields)
        = (if b then [r] else []).map (fun x => countKey k x.fields + 1)) ∧
    (∀ x ∈ (if b = true then [r2] else []), f ∈ x.fields) := by
  cases b <;> simp [hc, hf]

theorem With_deref (w : World) (l : Ptr) (k : String) (v : Value)
    (hl : l < w.heap.length) (hv : v ≠ Value.nil) :
    ((With w l k v).1.deref l).logger =
      { (w.deref l).logger with
        context := (w.deref l).logger.context ++ [⟨k, withEnc w.zerolog v⟩] } := by
  rw [With_eq _ _ _ _ hv]
  exact setLogger_deref _ _ _ hl

theorem With_zerolog (w : World) (l : Ptr) (k : String) (v : Value) :
    (With w l k v).1.zerolog = w.zerolog := by
  by_cases hv : v = Value.nil
  · subst hv; rfl
  · rw [With_eq _ _ _ _ hv]; rfl

theorem should_context (z : ZLogger) (ctx : List Field) (lvl : Level) :
    ({ z with context := ctx } : ZLogger).should lvl = z.should lvl := rfl

theorem mem_recordFields (g : Globals) (z : ZLogger) (lvl : Level) (msg : String)
    (f : Field) (fs : List Field) (h : f ∈ fs) :
    f ∈ recordFields g { z with context := z.context ++ fs } lvl msg := by
  simp [recordFields, h]

/-- After `With`, what a message emitter of level `lvl` writes. -/
theorem With_msg_written (w : World) (l : Ptr) (k : String) (v : Value) (msg : String)
    (lvl : Level) (hl : l < w.heap.length) (hv : v ≠ Value.nil) :
    ((if ((With w l k v).1.deref l).logger.should lvl then
          [({ w := ((With w l k v).1.deref l).logger.w, level := lvl,
              fields := recordFields (With w l k v).1.zerolog
                ((With w l k v).1.deref l).logger lvl msg } : Record)]
        else []).map (fun x => countKey k x.fields)
      = (if (w.deref l).logger.should lvl then
          [({ w := (w.deref l).logger.w, level := lvl,
              fields := recordFields w.zerolog (w.deref l).logger lvl msg } : Record)]
        else []).map (fun x => countKey k x.fields + 1)) ∧
    (∀ x ∈ (if ((With w l k v).1.deref l).logger.should lvl = true then
          [({ w := ((With w l k v).1.deref l).logger.w, level := lvl,
              fields := recordFields (With w l k v).1.zerolog
                ((With w l k v).1.deref l).logger lvl msg } : Record)]
        else []), (⟨k, withEnc w.zerolog v⟩ : Field) ∈ x.fields) := by
  rw [With_deref _ _ _ _ hl hv, With_zerolog, should_context]
  apply bump_written
  · simp only []
    rw [countKey_recordFields, countKey_single]
  · exact mem_recordFields _ _ _ _ _ _ (List.mem_singleton.2 rfl)

theorem With_error_written (w : World) (l : Ptr) (k : String) (v : Value)
    (err : Option GoError) (hl : l < w.heap.length) (hv : v ≠ Value.nil) :
    ((if ((With w l k v).1.deref l).logger.should ErrorLevel then
          [errorRecord (With w l k v).1 l err] else []).map (fun x => countKey k x.fields)
      = (if (w.deref l).logger.should ErrorLevel then
          [errorRecord w l err] else []).map (fun x => countKey k x.fields + 1)) ∧
    (∀ x ∈ (if ((With w l k v).1.deref l).logger.should ErrorLevel = true then
          [errorRecord (With w l k v).1 l err] else []),
      (⟨k, withEnc w.zerolog v⟩ : Field) ∈ x.fields) := by
  have hf : (errStack (With w l k v).1 true err).2 = (errStack w true err).2 :=
    errStack_fields_congr _ _ _ _ (With_zerolog _ _ _ _)
  rw [With_deref _ _ _ _ hl hv, should_context]
  apply bump_written
  · unfold errorRecord
    simp only [With_deref _ _ _ _ hl hv, With_zerolog, hf, countKey_append, countKey_single]
    omega
  · unfold errorRecord
    simp [With_deref _ _ _ _ hl hv]

theorem countKey_errStack (w : World) (stack : Bool) (err : Option GoError) (k : String)
    (hk : k ≠ ErrorStackFieldName) : countKey k (errStack w stack err).2 = 0 := by
  have hk2 : ¬ ErrorStackFieldName = k := fun h => hk h.symm
  cases stack with
  | false => simp [errStack_off, countKey]
  | true =>
    cases hm : w.zerolog.ErrorStackMarshaler with
    | none => simp [errStack_none _ _ _ hm, countKey]
    | some m =>
      cases m with
      | marshalStack =>
        rw [errStack_structured _ _ hm]
        cases errorsAs err <;> simp [countKey, hk2]
      | marshalStackPretty => simp [errStack_pretty _ _ hm, countKey]

theorem countKey_errField (err : Option GoError) (k : String) (hk : k ≠ ErrorFieldName) :
    countKey k (errField err) = 0 := by
  have hk2 : ¬ ErrorFieldName = k := fun h => hk h.symm
  cases err <;> simp [errField, countKey, hk2]

theorem countKey_hooks (g : Globals) (hooks : List Hook) (k : String)
    (h1 : k ≠ TimestampFieldName) (h2 : k ≠ CallerFieldName) :
    countKey k (hooks.map (Hook.run g)) = 0 := by
  have e1 : ¬ TimestampFieldName = k := fun h => h1 h.symm
  have e2 : ¬ CallerFieldName = k := fun h => h2 h.symm
  induction hooks with
  | nil => rfl
  | cons h hs ih =>
    rw [List.map_cons, ← List.singleton_append, countKey_append, ih]
    cases h <;> simp [countKey, Hook.run, e1, e2]

theorem reserved_split (k : String) (hk : k ∉ reservedKeys) :
    k ≠ LevelFieldName ∧ k ≠ TimestampFieldName ∧ k ≠ CallerFieldName ∧
    k ≠ MessageFieldName ∧ k ≠ ErrorFieldName ∧ k ≠ ErrorStackFieldName := by
  simp only [reservedKeys, List.mem_cons, List.mem_singleton, not_or, List.not_mem_nil,
    or_false] at hk
  exact hk

theorem countKey_baseline_record (g : Globals) (k : String) (lvl : Level) (msg : String)
    (hk : k ∉ reservedKeys) :
    countKey k (recordFields g baseline.logger lvl msg) = 0 := by
  obtain ⟨h1, h2, h3, h4, _, _⟩ := reserved_split k hk
  have e1 : ¬ LevelFieldName = k := fun h => h1 h.symm
  have e4 : ¬ MessageFieldName = k := fun h => h4 h.symm
  have hc : baseline.logger.context = [] := rfl
  unfold recordFields
  simp only [countKey_append, countKey_hooks g _ k h2 h3, hc]
  by_cases hn : lvl = NoLevel <;> by_cases hm : msg = "" <;> simp [countKey, hn, hm, e1, e4]

theorem countKey_baseline_error (w : World) (l : Ptr) (err : Option GoError) (k : String)
    (hd : w.deref l = baseline) (hk : k ∉ reservedKeys) :
    countKey k (errorRecord w l err).fields = 0 := by
  obtain ⟨h1, h2, h3, _, h5, h6⟩ := reserved_split k hk
  have e1 : ¬ LevelFieldName = k := fun h => h1 h.symm
  have hc : baseline.logger.context = [] := rfl
  unfold errorRecord
  simp only [hd, countKey_append, countKey_hooks _ _ k h2 h3, countKey_errStack _ _ _ k h6,
    countKey_errField _ k h5, hc]
  simp [countKey, e1]

/-- C2 (amended): for a non-nil value, `With(k, v)` returns the receiver,
never fails, and appends exactly one field with key `k` to the logger.  A
bool, string, int, uint, int64, uint64, float64 or duration is written with
the encoder of its own kind; a `time.Time` is written with the string
encoder, as its RFC3339Nano text; any other type is written with the generic
`Interface` encoder.  Every record written afterwards through the logger,
by `Debug`, `Info`, `Error` or `Panic`, carries the added field and holds
one more field with key `k` than the record the same call would have written
before `With`; the record is written in the one case exactly when it is in
the other.  On a logger fresh from `New()`, for a key that is none of level,
time, caller, message, error, stack, the record of `Info`, of `Error` and of
`Panic` holds exactly one field with key `k` (and `Debug` writes none). -/
theorem C2_with_appends_one_field (w : World) (l : Ptr) (k : String) (v : Value) (msg : String)
    (err : Option GoError) (hl : l < w.heap.length) (hv : v ≠ Value.nil) :
    (With w l k v).2 = l ∧
    (∃ e : Enc,
      ((With w l k v).1.deref l).logger =
        { (w.deref l).logger with context := (w.deref l).logger.context ++ [⟨k, e⟩] } ∧
      (∀ b, v = Value.bool b → e = Enc.bool b) ∧
      (∀ s, v = Value.string s → e = Enc.str s) ∧
      (∀ i, v = Value.int i → e = Enc.int i) ∧
      (∀ n, v = Value.uint n → e = Enc.uint n) ∧
      (∀ i, v = Value.int64 i → e = Enc.int64 i) ∧
      (∀ n, v = Value.uint64 n → e = Enc.uint64 n) ∧
      (∀ x, v = Value.float64 x → e = Enc.float64 x) ∧
      (∀ d, v = Value.duration d → e = Enc.dur d w.zerolog.DurationFieldInteger) ∧
      (∀ t, v = Value.time t → e = Enc.str (t.Format RFC3339Nano)) ∧
      (v.kind = some Kind.fallback → e = Enc.iface v) ∧
      (v.kind ≠ some Kind.timestamp → some e.encoder = v.kind) ∧
      (v.kind = some Kind.timestamp → e.encoder = Kind.string) ∧
      countKey k ((With w l k v).1.deref l).logger.context
        = countKey k (w.deref l).logger.context + 1 ∧
      (Debug (With w l k v).1 l msg).2 = Outcome.returned ∧
      (Info (With w l k v).1 l msg).2 = Outcome.returned ∧
      (Error (With w l k v).1 l err).2 = Outcome.returned ∧
      ((written (With w l k v).1 (Debug (With w l k v).1 l msg).1).map
          (fun r => countKey k r.fields)
        = (written w (Debug w l msg).1).map (fun r => countKey k r.fields + 1)) ∧
      (∀ r ∈ written (With w l k v).1 (Debug (With w l k v).1 l msg).1,
        (⟨k, e⟩ : Field) ∈ r.fields) ∧
      ((written (With w l k v).1 (Info (With w l k v).1 l msg).1).map
          (fun r => countKey k r.fields)
        = (written w (Info w l msg).1).map (fun r => countKey k r.fields + 1)) ∧
      (∀ r ∈ written (With w l k v).1 (Info (With w l k v).1 l msg).1,
        (⟨k, e⟩ : Field) ∈ r.fields) ∧
      ((written (With w l k v).1 (Error (With w l k v).1 l err).1).map
          (fun r => countKey k r.fields)
        = (written w (Error w l err).1).map (fun r => countKey k r.fields + 1)) ∧
      (∀ r ∈ written (With w l k v).1 (Error (With w l k v).1 l err).1,
        (⟨k, e⟩ : Field) ∈ r.fields) ∧
      ((written (With w l k v).1 (Panic (With w l k v).1 l msg).1).map
          (fun r => countKey k r.fields)
        = (written w (Panic w l msg).1).map (fun r => countKey k r.fields + 1)) ∧
      (∀ r ∈ written (With w l k v).1 (Panic (With w l k v).1 l msg).1,
        (⟨k, e⟩ : Field) ∈ r.fields)) ∧
    (∀ w0 : World, k ∉ reservedKeys →
      written (With (New w0 []).1 (New w0 []).2 k v).1
        (Debug (With (New w0 []).1 (New w0 []).2 k v).1 (New w0 []).2 msg).1 = [] ∧
      (written (With (New w0 []).1 (New w0 []).2 k v).1
        (Info (With (New w0 []).1 (New w0 []).2 k v).1 (New w0 []).2 msg).1).map
          (fun r => countKey k r.fields) = [1] ∧
      (written (With (New w0 []).1 (New w0 []).2 k v).1
        (Error (With (New w0 []).1 (New w0 []).2 k v).1 (New w0 []).2 err).1).map
          (fun r => countKey k r.fields) = [1] ∧
      (written (With (New w0 []).1 (New w0 []).2 k v).1
        (Panic (With (New w0 []).1 (New w0 []).2 k v).1 (New w0 []).2 msg).1).map
          (fun r => countKey k r.fields) = [1]) := by
  have gen : ∀ (w : World) (l : Ptr), l < w.heap.length →
      (((written (With w l k v).1 (Debug (With w l k v).1 l msg).1).map
          (fun r => countKey k r.fields)
        = (written w (Debug w l msg).1).map (fun r => countKey k r.fields + 1)) ∧
      (∀ r ∈ written (With w l k v).1 (Debug (With w l k v).1 l msg).1,
        (⟨k, withEnc w.zerolog v⟩ : Field) ∈ r.fields)) ∧
      (((written (With w l k v).1 (Info (With w l k v).1 l msg).1).map
          (fun r => countKey k r.fields)
        = (written w (Info w l msg).1).map (fun r => countKey k r.fields + 1)) ∧
      (∀ r ∈ written (With w l k v).1 (Info (With w l k v).1 l msg).1,
        (⟨k, withEnc w.zerolog v⟩ : Field) ∈ r.fields)) ∧
      (((written (With w l k v).1 (Error (With w l k v).1 l err).1).map
          (fun r => countKey k r.fields)
        = (written w (Error w l err).1).map (fun r => countKey k r.fields + 1)) ∧
      (∀ r ∈ written (With w l k v).1 (Error (With w l k v).1 l err).1,
        (⟨k, withEnc w.zerolog v⟩ : Field) ∈ r.fields)) ∧
      (((written (With w l k v).1 (Panic (With w l k v).1 l msg).1).map
          (fun r => countKey k r.fields)
        = (written w (Panic w l msg).1).map (fun r => countKey k r.fields + 1)) ∧
      (∀ r ∈ written (With w l k v).1 (Panic (With w l k v).1 l msg).1,
        (⟨k, withEnc w.zerolog v⟩ : Field) ∈ r.fields)) := by
    intro w l hl
    refine ⟨?_, ?_, ?_, ?_⟩
    · rw [Debug_written, Debug_written]
      exact With_msg_written w l k v msg DebugLevel hl hv
    · rw [Info_written, Info_written]
      exact With_msg_written w l k v msg InfoLevel hl hv
    · rw [Error_written, Error_written]
      exact With_error_written w l k v err hl hv
    · rw [Panic_written, Panic_written]
      exact With_msg_written w l k v msg PanicLevel hl hv
  refine ⟨by rw [With_eq _ _ _ _ hv], ⟨withEnc w.zerolog v, With_deref w l k v hl hv, ?_⟩, ?_⟩
  · obtain ⟨hk1, hk2, hk3⟩ := withEnc_kind w.zerolog v hv
    obtain ⟨⟨d1, d2⟩, ⟨i1, i2⟩, ⟨e1, e2⟩, ⟨p1, p2⟩⟩ := gen w l hl
    refine ⟨?_, ?_, ?_, ?_, ?_, ?_, ?_, ?_, ?_, hk3, hk1, hk2, ?_, ?_, ?_, ?_,
      d1, d2, i1, i2, e1, e2, p1, p2⟩
    · intro b h; subst h; rfl
    · intro b h; subst h; rfl
    · intro b h; subst h; rfl
    · intro b h; subst h; rfl
    · intro b h; subst h; rfl
    · intro b h; subst h; rfl
    · intro b h; subst h; rfl
    · intro b h; subst h; rfl
    · intro b h; subst h; rfl
    · rw [With_deref w l k v hl hv]
      simp [countKey_append, countKey_single]
    · unfold Debug; rw [emit_eq]; split <;> rfl
    · rw [Info_eq]; split <;> rfl
    · rw [Error_eq]; split <;> rfl
  · intro w0 hk
    have hd : (New w0 []).1.deref (New w0 []).2 = baseline := New_deref w0 []
    obtain ⟨⟨d1, _⟩, ⟨i1, _⟩, ⟨e1, _⟩, ⟨p1, _⟩⟩ := gen (New w0 []).1 (New w0 []).2 (New_valid w0 [])
    have sD : baseline.logger.should DebugLevel = false := by decide
    have sI : baseline.logger.should InfoLevel = true := by decide
    have sE : baseline.logger.should ErrorLevel = true := by decide
    have sP : baseline.logger.should PanicLevel = true := by decide
    refine ⟨?_, ?_, ?_, ?_⟩
    · have h := d1
      rw [Debug_written (New w0 []).1, hd, sD] at h
      simpa using h
    · rw [i1, Info_written, hd, sI]
      simp [countKey_baseline_record _ k _ _ hk]
    · rw [e1, Error_written, hd, sE]
      simp [countKey_baseline_error _ _ _ k hd hk]
    · rw [p1, Panic_written, hd, sP]
      simp [countKey_baseline_record _ k _ _ hk]

/-- Witness of C2 on `New().With("foo", "bar")`. -/
theorem C2_with_appends_one_field_witness :
    0 < (New boot []).1.heap.length ∧ Value.string "bar" ≠ Value.nil ∧
    (With (New boot []).1 0 "foo" (Value.string "bar")).2 = 0 ∧
    "foo" ∉ reservedKeys ∧
    (written (With (New boot []).1 (New boot []).2 "foo" (Value.string "bar")).1
        (Error (With (New boot []).1 (New boot []).2 "foo" (Value.string "bar")).1
          (New boot []).2 (some ⟨"test", none⟩)).1).map
      (fun r => countKey "foo" r.fields) = [1] :=
  ⟨by decide, by decide,
    (C2_with_appends_one_field (New boot []).1 0 "foo" (Value.string "bar") "hello"
      (some ⟨"test", none⟩) (by decide) (by decide)).1,
    by decide,
    ((C2_with_appends_one_field (New boot []).1 0 "foo" (Value.string "bar") "hello"
      (some ⟨"test", none⟩) (by decide) (by decide)).2.2 boot (by decide)).2.2.1⟩

/-! ## Lines written by the pretty marshaler -/

theorem digitChar_ne_lf : ∀ d < 10, Nat.digitChar d ≠ Char.ofNat 10 := by
  decide

theorem toDigitsCore_no_lf (fuel : Nat) (n : Nat) (acc : List Char)
    (h : ∀ c ∈ acc, c ≠ Char.ofNat 10) :
    ∀ c ∈ Nat.toDigitsCore 10 fuel n acc, c ≠ Char.ofNat 10 := by
  induction fuel generalizing n acc with
  | zero => simpa [Nat.toDigitsCore] using h
  | succ f ih =>
    unfold Nat.toDigitsCore
    simp only
    have h2 : ∀ c ∈ Nat.digitChar (n % 10) :: acc, c ≠ Char.ofNat 10 := by
      intro c hc
      rcases List.mem_cons.1 hc with h3 | h3
      · rw [h3]; exact digitChar_ne_lf _ (Nat.mod_lt _ (by decide))
      · exact h c h3
    split
    · exact h2
    · exact ih _ _ h2

theorem lineBreaks_append (a b : String) : lineBreaks (a ++ b) = lineBreaks a + lineBreaks b := by
  simp [lineBreaks, String.toList, List.count_append]

theorem lineBreaks_toString (n : Nat) : lineBreaks (toString n) = 0 := by
  have h : ∀ c ∈ Nat.toDigits 10 n, c ≠ Char.ofNat 10 :=
    toDigitsCore_no_lf _ _ _ (by simp)
  show List.count (Char.ofNat 10) (Nat.toDigits 10 n) = 0
  rw [List.count_eq_zero]
  intro hm
  exact h _ hm rfl

theorem lineBreaks_framePrintf (f : Frame) :
    lineBreaks (framePrintf f) = lineBreaks f.function + lineBreaks f.file + 2 := by
  unfold framePrintf
  simp only [lineBreaks_append, lineBreaks_toString]
  have h1 : lineBreaks "\n\t" = 1 := by decide
  have h2 : lineBreaks ":" = 0 := by decide
  have h3 : lineBreaks "\r\n" = 1 := by decide
  omega

theorem lineBreaks_frames (st : List Frame) :
    ((st.map framePrintf).map lineBreaks).sum
      = 2 * st.length + (st.map (fun f => lineBreaks f.function + lineBreaks f.file)).sum := by
  induction st with
  | nil => rfl
  | cons f fs ih =>
    simp only [List.map_cons, List.sum_cons, List.length_cons, ih, lineBreaks_framePrintf]
    omega

theorem runNews_keeps_structured (calls : List (List LoggerOption)) (w : World)
    (h1 : w.once = true)
    (h2 : w.zerolog.ErrorStackMarshaler = some StackMarshaler.marshalStack)
    (h3 : ∀ c ∈ calls, LoggerOption.Pretty ∉ c) :
    (runNews w calls).zerolog.ErrorStackMarshaler = some StackMarshaler.marshalStack := by
  induction calls generalizing w with
  | nil => exact h2
  | cons c cs ih =>
    show (runNews (New w c).1 cs).zerolog.ErrorStackMarshaler = _
    apply ih _ (New_once w c)
    · rw [New_marshaler, onceDo_done _ _ h1, h2, if_neg (h3 c (List.mem_cons_self _ _))]
    · intro d hd
      exact h3 d (List.mem_cons_of_mem _ hd)

theorem runNews_boot_structured (calls : List (List LoggerOption)) (hne : calls ≠ [])
    (h3 : ∀ c ∈ calls, LoggerOption.Pretty ∉ c) :
    (runNews boot calls).zerolog.ErrorStackMarshaler = some StackMarshaler.marshalStack := by
  cases calls with
  | nil => exact absurd rfl hne
  | cons c cs =>
    show (runNews (New boot c).1 cs).zerolog.ErrorStackMarshaler = _
    obtain ⟨_, a2, _, _, _, _, a7⟩ := New_first c
    rw [if_neg (h3 c (List.mem_cons_self _ _))] at a7
    exact runNews_keeps_structured cs _ a2 a7 (fun d hd => h3 d (List.mem_cons_of_mem _ hd))

theorem runNews_pretty (w : World) (pre post : List (List LoggerOption))
    (opts : List LoggerOption) (hp : LoggerOption.Pretty ∈ opts) :
    (runNews w (pre ++ [opts] ++ post)).zerolog.ErrorStackMarshaler
      = some StackMarshaler.marshalStackPretty := by
  have hA : (runNews w (pre ++ [opts])).zerolog.ErrorStackMarshaler
      = some StackMarshaler.marshalStackPretty := by
    rw [runNews_append]
    show (New (runNews w pre) opts).1.zerolog.ErrorStackMarshaler = _
    rw [New_marshaler, if_pos hp]
  have hO : (runNews w (pre ++ [opts])).once = true := by
    rw [runNews_append]
    exact New_once _ _
  rw [runNews_append]
  exact runNews_keeps_pretty post _ hO hA

/-- C6 as stated fails.  In pretty mode the three frames of a stack give
three writes to standard output but six lines, two per frame: the text of a
frame is its function, a line feed and a tab, then file and line and CR LF.
And the mode is the process-wide marshaler, not the mode of the instance: on
the structured instance `New()`, after another `New(Pretty())`,
`WithError(err)` adds the error field and no stack field. -/
theorem C6_counterexample :
    (New boot [LoggerOption.Pretty]).1.stdout = [] ∧
    (WithError (New boot [LoggerOption.Pretty]).1 0
      (some ⟨"boom", some [⟨"main.f", "/a/f.go", 10⟩, ⟨"main.g", "/a/g.go", 20⟩,
        ⟨"main.main", "/a/m.go", 30⟩]⟩)).1.stdout
      = ["main.f\n\t/a/f.go:10\r\n", "main.g\n\t/a/g.go:20\r\n",
          "main.main\n\t/a/m.go:30\r\n"] ∧
    ((WithError (New boot [LoggerOption.Pretty]).1 0
      (some ⟨"boom", some [⟨"main.f", "/a/f.go", 10⟩, ⟨"main.g", "/a/g.go", 20⟩,
        ⟨"main.main", "/a/m.go", 30⟩]⟩)).1.stdout.map lineBreaks).sum = 6 ∧
    ((New (New boot []).1 [LoggerOption.Pretty]).1.deref 0).pretty = false ∧
    ((New (New boot []).1 [LoggerOption.Pretty]).1.deref 0).logger.w = Writer.stderr ∧
    ((WithError (New (New boot []).1 [LoggerOption.Pretty]).1 0
      (some ⟨"boom", some [⟨"main.f", "/a/f.go", 10⟩, ⟨"main.g", "/a/g.go", 20⟩,
        ⟨"main.main", "/a/m.go", 30⟩]⟩)).1.deref 0).logger.context
      = [⟨"error", Enc.str "boom"⟩] := by
  decide

/-- C6 (amended): let `err` expose a stack of the frames `st`; the mode is
that of the process, not of the instance.  While the process-wide marshaler
is `marshalStack` (after one or more `New` calls, none with `Pretty()`),
`marshalStack` returns one element per frame, and `WithError(err)` on any
instance prints nothing and adds a stack field of those `st.length` elements
and then the error field; a record `Info` then writes holds both.  Once it is
`marshalStackPretty` (after a `New` call with `Pretty()`), on any instance
the marshaler returns nil and makes exactly one write per frame, in order, to
standard output, each the function, a line feed and a tab, the file, a
colon, the line and CR LF: two lines per frame, `2 * st.length` lines when
the names hold no line feed; `WithError(err)` adds the error field and no
stack field.  For an error exposing no stack, both marshalers return nil and
write nothing. -/
theorem C6_stack_modes (w : World) (l : Ptr) (err : GoError) (st : List Frame) (msg : String)
    (hl : l < w.heap.length) (hst : err.stackTrace = some st) :
    (w.zerolog.ErrorStackMarshaler = some StackMarshaler.marshalStack →
      marshalStack (some err) = Value.frames st ∧
      (WithError w l (some err)).2 = l ∧
      (WithError w l (some err)).1.stdout = w.stdout ∧
      ((WithError w l (some err)).1.deref l).logger.context
        = (w.deref l).logger.context ++
          [⟨ErrorStackFieldName, Enc.iface (Value.frames st)⟩,
           ⟨ErrorFieldName, Enc.str err.text⟩] ∧
      countKey ErrorStackFieldName ((WithError w l (some err)).1.deref l).logger.context
        = countKey ErrorStackFieldName (w.deref l).logger.context + 1 ∧
      ((w.deref l).logger.level ≤ InfoLevel →
        ∃ r, (Info (WithError w l (some err)).1 l msg).1.stderr = w.stderr ++ [r] ∧
          (⟨ErrorStackFieldName, Enc.iface (Value.frames st)⟩ : Field) ∈ r.fields ∧
          (⟨ErrorFieldName, Enc.str err.text⟩ : Field) ∈ r.fields)) ∧
    (w.zerolog.ErrorStackMarshaler = some StackMarshaler.marshalStackPretty →
      (marshalStackPretty w (some err)).2 = Value.nil ∧
      (marshalStackPretty w (some err)).1.stdout = w.stdout ++
        st.map (fun f => f.function ++ "\n\t" ++ f.file ++ ":" ++ toString f.line ++ "\r\n") ∧
      (WithError w l (some err)).2 = l ∧
      (WithError w l (some err)).1.stdout = w.stdout ++
        st.map (fun f => f.function ++ "\n\t" ++ f.file ++ ":" ++ toString f.line ++ "\r\n") ∧
      (st.map (fun f =>
        f.function ++ "\n\t" ++ f.file ++ ":" ++ toString f.line ++ "\r\n")).length
          = st.length ∧
      ((st.map (fun f =>
        f.function ++ "\n\t" ++ f.file ++ ":" ++ toString f.line ++ "\r\n")).map lineBreaks).sum
          = 2 * st.length + (st.map (fun f => lineBreaks f.function + lineBreaks f.file)).sum ∧
      ((∀ f ∈ st, lineBreaks f.function = 0 ∧ lineBreaks f.file = 0) →
        ((st.map (fun f =>
          f.function ++ "\n\t" ++ f.file ++ ":" ++ toString f.line ++ "\r\n")).map
            lineBreaks).sum = 2 * st.length) ∧
      ((WithError w l (some err)).1.deref l).logger.context
        = (w.deref l).logger.context ++ [⟨ErrorFieldName, Enc.str err.text⟩] ∧
      countKey ErrorStackFieldName ((WithError w l (some err)).1.deref l).logger.context
        = countKey ErrorStackFieldName (w.deref l).logger.context ∧
      ((w.deref l).logger.level ≤ InfoLevel →
        ∃ r, (Info (WithError w l (some err)).1 l msg).1.stderr = w.stderr ++ [r] ∧
          (⟨ErrorFieldName, Enc.str err.text⟩ : Field) ∈ r.fields ∧
          countKey ErrorStackFieldName r.fields
            = countKey ErrorStackFieldName
                (recordFields w.zerolog (w.deref l).logger InfoLevel msg))) ∧
    (∀ (w0 : World) (e : Option GoError), errorsAs e = none →
      marshalStack e = Value.nil ∧ marshalStackPretty w0 e = (w0, Value.nil)) ∧
    (∀ calls : List (List LoggerOption), calls ≠ [] →
      (∀ c ∈ calls, LoggerOption.Pretty ∉ c) →
      (runNews boot calls).zerolog.ErrorStackMarshaler = some StackMarshaler.marshalStack) ∧
    (∀ (w0 : World) (pre post : List (List LoggerOption)) (opts : List LoggerOption),
      LoggerOption.Pretty ∈ opts →
      (runNews w0 (pre ++ [opts] ++ post)).zerolog.ErrorStackMarshaler
        = some StackMarshaler.marshalStackPretty) := by
  have has : errorsAs (some err) = some st := hst
  have hfp : (fun f : Frame =>
      f.function ++ "\n\t" ++ f.file ++ ":" ++ toString f.line ++ "\r\n") = framePrintf := rfl
  have hinfo : ∀ fs : List Field,
      ((WithError w l (some err)).1.deref l).logger.context = (w.deref l).logger.context ++ fs →
      (w.deref l).logger.level ≤ InfoLevel →
      (Info (WithError w l (some err)).1 l msg).1.stderr = w.stderr ++
        [{ w := (w.deref l).logger.w, level := InfoLevel,
           fields := recordFields w.zerolog
            { (w.deref l).logger with context := (w.deref l).logger.context ++ fs }
              InfoLevel msg }] := by
    intro fs hfs hlev
    have hd := WithError_deref w l (some err) hl
    have hsh : ((WithError w l (some err)).1.deref l).logger.should InfoLevel = true := by
      rw [should_iff _ _ (by decide), hd]; exact hlev
    rw [Info_eq, if_pos hsh]
    show (WithError w l (some err)).1.stderr ++ _ = _
    rw [WithError_stderr, WithError_zerolog]
    have hctx : (w.deref l).logger.context ++ (errStack w true (some err)).2 ++
        errField (some err) = (w.deref l).logger.context ++ fs := by
      rw [hd] at hfs; exact hfs
    simp only [hd, recordFields, hctx]
  refine ⟨?_, ?_, ?_, runNews_boot_structured, runNews_pretty⟩
  · intro hm
    have hes := errStack_structured w (some err) hm
    rw [has] at hes
    have hctx : ((WithError w l (some err)).1.deref l).logger.context
        = (w.deref l).logger.context ++
          [⟨ErrorStackFieldName, Enc.iface (Value.frames st)⟩,
           ⟨ErrorFieldName, Enc.str err.text⟩] := by
      rw [WithError_deref _ _ _ hl, hes]
      simp [errField]
    refine ⟨by rw [marshalStack_eq, has], by rw [WithError_eq], ?_, hctx, ?_, ?_⟩
    · rw [WithError_stdout, hes]
    · rw [hctx]
      simp [countKey_append, countKey, ErrorStackFieldName, ErrorFieldName]
    · intro hlev
      refine ⟨_, hinfo _ hctx hlev, ?_, ?_⟩ <;> simp [recordFields]
  · intro hm
    have hes := errStack_pretty w (some err) hm
    rw [has] at hes
    simp only [Option.getD_some] at hes
    have hctx : ((WithError w l (some err)).1.deref l).logger.context
        = (w.deref l).logger.context ++ [⟨ErrorFieldName, Enc.str err.text⟩] := by
      rw [WithError_deref _ _ _ hl, hes]
      simp [errField]
    rw [hfp]
    refine ⟨by rw [marshalStackPretty_eq], by rw [marshalStackPretty_eq, has]; rfl,
      by rw [WithError_eq], ?_, by simp, lineBreaks_frames st, ?_, hctx, ?_, ?_⟩
    · rw [WithError_stdout, hes]
    · intro hclean
      rw [lineBreaks_frames]
      have hz : (st.map (fun f => lineBreaks f.function + lineBreaks f.file)).sum = 0 := by
        apply List.sum_eq_zero
        intro x hx
        obtain ⟨f, hf, rfl⟩ := List.mem_map.1 hx
        simp [(hclean f hf).1, (hclean f hf).2]
      omega
    · rw [hctx]
      simp [countKey_append, countKey, ErrorStackFieldName, ErrorFieldName]
    · intro hlev
      refine ⟨_, hinfo _ hctx hlev, ?_, ?_⟩
      · simp [recordFields]
      · simp only []
        rw [countKey_recordFields]
        simp [countKey, ErrorStackFieldName, ErrorFieldName]
  · intro w0 e he
    refine ⟨by rw [marshalStack_eq, he], ?_⟩
    unfold marshalStackPretty
    rw [he]

/-- Witness of C6: an error with a three-frame stack, on the logger of
`New()` (structured mode) and on the logger of `New(Pretty())` (pretty mode,
three writes, six lines). -/
theorem C6_stack_modes_witness :
    (0 < (New boot []).1.heap.length ∧
      (GoError.mk "boom" (some [⟨"main.f", "/a/f.go", 10⟩, ⟨"main.g", "/a/g.go", 20⟩,
        ⟨"main.main", "/a/m.go", 30⟩])).stackTrace
        = some [⟨"main.f", "/a/f.go", 10⟩, ⟨"main.g", "/a/g.go", 20⟩,
            ⟨"main.main", "/a/m.go", 30⟩] ∧
      (New boot []).1.zerolog.ErrorStackMarshaler = some StackMarshaler.marshalStack ∧
      marshalStack (some (GoError.mk "boom" (some [⟨"main.f", "/a/f.go", 10⟩,
          ⟨"main.g", "/a/g.go", 20⟩, ⟨"main.main", "/a/m.go", 30⟩])))
        = Value.frames [⟨"main.f", "/a/f.go", 10⟩, ⟨"main.g", "/a/g.go", 20⟩,
            ⟨"main.main", "/a/m.go", 30⟩]) ∧
    (0 < (New boot [LoggerOption.Pretty]).1.heap.length ∧
      (New boot [LoggerOption.Pretty]).1.zerolog.ErrorStackMarshaler
        = some StackMarshaler.marshalStackPretty ∧
      (∀ f ∈ [Frame.mk "main.f" "/a/f.go" 10, ⟨"main.g", "/a/g.go", 20⟩,
          ⟨"main.main", "/a/m.go", 30⟩], lineBreaks f.function = 0 ∧ lineBreaks f.file = 0) ∧
      (([Frame.mk "main.f" "/a/f.go" 10, ⟨"main.g", "/a/g.go", 20⟩,
          ⟨"main.main", "/a/m.go", 30⟩].map (fun f =>
            f.function ++ "\n\t" ++ f.file ++ ":" ++ toString f.line ++ "\r\n")).map
              lineBreaks).sum
        = 2 * [Frame.mk "main.f" "/a/f.go" 10, ⟨"main.g", "/a/g.go", 20⟩,
            ⟨"main.main", "/a/m.go", 30⟩].length) :=
  ⟨⟨by decide, rfl, by decide,
      ((C6_stack_modes (New boot []).1 0 _ _ "x" (by decide) rfl).1 (by decide)).1⟩,
    ⟨by decide, by decide, by decide,
      ((C6_stack_modes (New boot [LoggerOption.Pretty]).1 0 (GoError.mk "boom" _) _ "x"
        (by decide) rfl).2.1 (by decide)).2.2.2.2.2.2.1 (by decide)⟩⟩

end Zlg
